import Mathlib

/-! # Appointment booking: slot allocator and status transitions

Shallow embedding of the server side of the appointment-booking application:

* `server/models/Slot.js`, `server/models/Booking.js` : the two collections,
* `server/routes/bookings.js` : `POST /book`, `PATCH /bookings/:id/status`,
  `GET /my-bookings` and `GET /all-bookings`,
* `server/routes/slots.js` : `GET /slots`,
* `server/middleware/auth.js` : `requireRole`.

Instants are JavaScript time values: integer milliseconds since the epoch.
Document ids (`_id`) are natural numbers; a new document receives an id
different from every id already present in its collection.  The bookkeeping
fields `createdAt` / `updatedAt` and the optional `notes` are not part of the
model.
-/

namespace AppointmentBooking

/-! ## Data model -/

/-- Values of the `status` enum of `models/Booking.js`. -/
inductive Status
  | confirmed
  | cancelled
  | completed
  deriving DecidableEq, Repr

/-- A document of the Slot collection (`models/Slot.js`). -/
structure Slot where
  id : Nat
  startAt : Int
  endAt : Int
  isBooked : Bool
  deriving DecidableEq, Repr

/-- A document of the Booking collection (`models/Booking.js`); `slotId` holds the
`_id` of a Slot. -/
structure Booking where
  id : Nat
  userId : Nat
  slotId : Nat
  status : Status
  deriving DecidableEq, Repr

/-- The database: both collections in insertion order. -/
structure Store where
  slots : List Slot
  bookings : List Booking
  deriving DecidableEq, Repr

/-- The database before any request. -/
def Store.empty : Store := ⟨[], []⟩

/-- A request field that is handed to `new Date(...)`: a falsy value (absent, null,
empty string), a truthy value whose date is `NaN`, or a value denoting an instant. -/
inductive DateInput
  | missing
  | malformed
  | instant (ms : Int)
  deriving DecidableEq, Repr

/-- What the deployment fixes outside `src/`: the offset of server-local time from UTC
in milliseconds (a fixed offset, without daylight-saving changes), and how the storage engine evaluates the filter
`{"slotId.startAt": s, "slotId.endAt": e}` of `bookings.js` line 59 on a Booking
document (given the Slot collection, the document and the two instants). -/
structure Server where
  tz : Int
  slotPathFilter : List Slot → Booking → Int → Int → Bool

/-- MongoDB evaluates a filter on the stored document.  A stored Booking keeps an
ObjectId in `slotId` (population happens after the query), so the paths
`slotId.startAt` and `slotId.endAt` have no value and no document matches. -/
def storedPathFilter : List Slot → Booking → Int → Int → Bool :=
  fun _ _ _ _ => false

/-- A server in UTC on MongoDB. -/
def utcServer : Server := ⟨0, storedPathFilter⟩

/-! ## Dates -/

/-- Local hour of an instant, `Date.prototype.getHours`, in `0..23`. -/
def getHours (tz t : Int) : Int := ((t + tz) % 86400000) / 3600000

/-- Local minute of an instant, `Date.prototype.getMinutes`. -/
def getMinutes (tz t : Int) : Int := ((t + tz) % 3600000) / 60000

/-- Local millisecond of the day of an instant. -/
def timeOfDay (tz t : Int) : Int := (t + tz) % 86400000

/-- Number of the local calendar day of an instant. -/
def localDay (tz t : Int) : Int := (t + tz) / 86400000

/-- The instant at which local day `d` shows `h:m` on the clock. -/
def atLocal (tz d h m : Int) : Int := d * 86400000 + h * 3600000 + m * 60000 - tz

/-! ## `POST /book` : validation (lines 17-56) -/

/-- The five 400 answers of `POST /book`, in source order. -/
inductive ValidationError
  | timesRequired
  | invalidDateFormat
  | pastSlot
  | outsideBusinessHours
  | wrongDuration
  deriving DecidableEq, Repr

/-- The text sent with each 400 answer. -/
def ValidationError.message : ValidationError → String
  | .timesRequired => "Start time and end time are required"
  | .invalidDateFormat => "Invalid date format"
  | .pastSlot => "Cannot book slots in the past"
  | .outsideBusinessHours => "Slots must be between 9:00 AM and 5:00 PM"
  | .wrongDuration => "Slot duration must be exactly 30 minutes"

/-- Result of the validation block: the first failing check, or the two instants. -/
inductive Validated
  | rejected (e : ValidationError)
  | accepted (startTime endTime : Int)
  deriving DecidableEq, Repr

/-- Lines 17-56 of `bookings.js`.  `now` is the value of `new Date()` on line 34.
The source compares `(endTime - startTime) / (1000 * 60)` with `30` in double
arithmetic; time values are integers below `2^53`, so that quotient is `30`
exactly when the difference is `30 * (1000 * 60)`. -/
def validateBooking (tz now : Int) : DateInput → DateInput → Validated
  | .missing, _ => .rejected .timesRequired
  | _, .missing => .rejected .timesRequired
  | .malformed, _ => .rejected .invalidDateFormat
  | _, .malformed => .rejected .invalidDateFormat
  | .instant startTime, .instant endTime =>
    if startTime ≤ now then .rejected .pastSlot
    else if getHours tz startTime < 9 ∨ getHours tz endTime > 17 then
      .rejected .outsideBusinessHours
    else if endTime - startTime ≠ 30 * (1000 * 60) then .rejected .wrongDuration
    else .accepted startTime endTime

/-! ## Storage operations -/

/-- An id not used by any document of a collection. -/
def freshId (ids : List Nat) : Nat := ids.foldr max 0 + 1

/-- Query `Slot.findOne({ startAt, endAt })`: the first stored slot with the pair. -/
def Slot.findOne (slots : List Slot) (startAt endAt : Int) : Option Slot :=
  slots.find? (fun sl => sl.startAt == startAt && sl.endAt == endAt)

/-- The `pre("save")` hook of `models/Slot.js`: `true` when the save is refused. -/
def Slot.saveRefused (sl : Slot) : Bool := decide (sl.endAt ≤ sl.startAt)

/-- Saving a new Slot (`new Slot({...}).save()`): the hook, then an insert.  The
index on `(startAt, endAt)` is not unique, so the insert itself never fails. -/
def Slot.create (slots : List Slot) (startAt endAt : Int) (isBooked : Bool) :
    Option (List Slot × Slot) :=
  let sl : Slot := ⟨freshId (slots.map (·.id)), startAt, endAt, isBooked⟩
  if sl.saveRefused then none else some (slots ++ [sl], sl)

/-- Write `isBooked` of the first document with the given `_id`. -/
def Slot.setBooked (id : Nat) (v : Bool) : List Slot → List Slot
  | [] => []
  | sl :: rest =>
    if sl.id = id then { sl with isBooked := v } :: rest
    else sl :: Slot.setBooked id v rest

/-- Saving a loaded Slot after `slot.isBooked = true` (lines 88-89): the hook, then an
update of that field by `_id`. -/
def Slot.saveBooked (slots : List Slot) (sl : Slot) : Option (List Slot) :=
  if sl.saveRefused then none else some (Slot.setBooked sl.id true slots)

/-- Saving a new Booking (lines 93-98).  `slotId` carries a unique index
(`unique: true, // Prevent double booking`): the insert is refused when some
Booking, of any status, already has that `slotId`.  The status defaults to
`confirmed`. -/
def Booking.create (bookings : List Booking) (userId slotId : Nat) :
    Option (List Booking × Booking) :=
  if bookings.any (fun b => b.slotId == slotId) then none
  else
    let b : Booking := ⟨freshId (bookings.map (·.id)), userId, slotId, .confirmed⟩
    some (bookings ++ [b], b)

/-! ## `POST /book` : claim protocol (lines 58-121) -/

/-- Answers of `POST /book`. -/
inductive Response
  | created (b : Booking)
  | badRequest (e : ValidationError)
  | conflict
  | serverError
  deriving DecidableEq, Repr

/-- HTTP status code of an answer. -/
def Response.code : Response → Nat
  | .created _ => 201
  | .badRequest _ => 400
  | .conflict => 409
  | .serverError => 500

/-- Lines 92-121: create the Booking for a claimed slot; a refused insert throws and
the `catch` block answers 500 (nothing is undone there). -/
def saveBooking (s : Store) (userId slotId : Nat) : Response × Store :=
  match Booking.create s.bookings userId slotId with
  | none => (.serverError, s)
  | some (bookings1, b) => (.created b, { s with bookings := bookings1 })

/-- Lines 58-121 of `bookings.js` for validated instants, run without interruption. -/
def claimSlot (srv : Server) (s : Store) (userId : Nat) (startTime endTime : Int) :
    Response × Store :=
  match s.bookings.find? (fun b => srv.slotPathFilter s.slots b startTime endTime) with
  | some _ => (.conflict, s)
  | none =>
    match Slot.findOne s.slots startTime endTime with
    | none =>
      match Slot.create s.slots startTime endTime true with
      | none => (.serverError, s)
      | some (slots1, sl) => saveBooking { s with slots := slots1 } userId sl.id
    | some sl =>
      if sl.isBooked then (.conflict, s)
      else
        match Slot.saveBooked s.slots sl with
        | none => (.serverError, s)
        | some slots1 => saveBooking { s with slots := slots1 } userId sl.id

/-- The handler of `POST /book` (lines 12-122) for an authenticated user. -/
def bookSlot (srv : Server) (now : Int) (s : Store) (userId : Nat)
    (startAt endAt : DateInput) : Response × Store :=
  match validateBooking srv.tz now startAt endAt with
  | .rejected e => (.badRequest e, s)
  | .accepted startTime endTime => claimSlot srv s userId startTime endTime

/-! ## `PATCH /bookings/:id/status` (lines 234-285) -/

/-- The array `allowedStatuses` of line 241. -/
def allowedStatuses : List String := ["confirmed", "cancelled", "completed"]

/-- The enum value written by an allowed status string. -/
def Status.ofString? (str : String) : Option Status :=
  if str = "confirmed" then some .confirmed
  else if str = "cancelled" then some .cancelled
  else if str = "completed" then some .completed
  else none

/-- Answers of `PATCH /bookings/:id/status`. -/
inductive StatusResponse
  | updated (b : Booking)
  | invalidStatus
  | notFound
  | serverError
  deriving DecidableEq, Repr

/-- HTTP status code of an answer. -/
def StatusResponse.code : StatusResponse → Nat
  | .updated _ => 200
  | .invalidStatus => 400
  | .notFound => 404
  | .serverError => 500

/-- Write `status` of the first Booking with the given `_id` (`booking.save()`). -/
def Booking.setStatus (id : Nat) (st : Status) : List Booking → List Booking
  | [] => []
  | b :: rest =>
    if b.id = id then { b with status := st } :: rest
    else b :: Booking.setStatus id st rest

/-- The handler of `PATCH /bookings/:id/status` for an admin.  `status` is the body
field (`none` when it is absent or not a string).  A populated `booking.slotId` is
truthy exactly when the referenced Slot exists. -/
def setStatus (s : Store) (id : Nat) (status : Option String) : StatusResponse × Store :=
  match status.bind Status.ofString? with
  | none => (.invalidStatus, s)
  | some st =>
    match s.bookings.find? (fun b => b.id == id) with
    | none => (.notFound, s)
    | some b =>
      let s1 : Store := { s with bookings := Booking.setStatus id st s.bookings }
      let s2 : Store :=
        if st = .cancelled ∧ s.slots.any (fun sl => sl.id == b.slotId) then
          { s1 with slots := Slot.setBooked b.slotId false s1.slots }
        else s1
      (.updated { b with status := st }, s2)

/-! ## Request sequences -/

/-- A request to one of the two handlers that write the database. -/
inductive Request
  | book (now : Int) (userId : Nat) (startAt endAt : DateInput)
  | patchStatus (bookingId : Nat) (newStatus : Option String)
  deriving DecidableEq, Repr

/-- The database after a request, whatever its answer. -/
def Request.run (srv : Server) (s : Store) : Request → Store
  | .book now userId startAt endAt => (bookSlot srv now s userId startAt endAt).2
  | .patchStatus bookingId newStatus => (setStatus s bookingId newStatus).2

/-- The database after a sequence of requests handled one after the other. -/
def runRequests (srv : Server) (s : Store) (rs : List Request) : Store :=
  rs.foldl (Request.run srv) s

/-- Databases that sequences of requests produce from the empty one. -/
def Reachable (srv : Server) (s : Store) : Prop :=
  ∃ rs : List Request, runRequests srv Store.empty rs = s

/-- Bookings that reference a slot and are not cancelled. -/
def activeBookings (s : Store) (slotId : Nat) : List Booking :=
  s.bookings.filter (fun b => b.slotId == slotId && b.status != .cancelled)

/-- Every slot flagged `isBooked` has exactly one booking that is not cancelled. -/
def BookedSlotsHeld (s : Store) : Prop :=
  ∀ sl ∈ s.slots, sl.isBooked = true → (activeBookings s sl.id).length = 1

instance (s : Store) : Decidable (BookedSlotsHeld s) := by
  unfold BookedSlotsHeld; infer_instance

/-! ## Concurrent `POST /book` handlers

Between two `await`s a handler runs without interruption; each awaited storage
operation is one atomic step.  A handler that passed validation is at one of the
following points. -/

/-- Control point of a `POST /book` handler after validation. -/
inductive Pc
  | findBooking
  | findSlot
  | insertSlot
  | updateSlot (sl : Slot)
  | insertBooking (slotId : Nat)
  | answered (r : Response)
  deriving DecidableEq, Repr

/-- A running handler: its validated request and its control point. -/
structure Call where
  userId : Nat
  startTime : Int
  endTime : Int
  pc : Pc
  deriving DecidableEq, Repr

/-- A handler that has just passed validation. -/
def Call.start (userId : Nat) (startTime endTime : Int) : Call :=
  ⟨userId, startTime, endTime, .findBooking⟩

/-- One storage operation of a handler (lines 59, 71, 82, 89, 98 of `bookings.js`). -/
def Call.step (srv : Server) (s : Store) (c : Call) : Store × Call :=
  match c.pc with
  | .findBooking =>
    match s.bookings.find? (fun b => srv.slotPathFilter s.slots b c.startTime c.endTime) with
    | some _ => (s, { c with pc := .answered .conflict })
    | none => (s, { c with pc := .findSlot })
  | .findSlot =>
    match Slot.findOne s.slots c.startTime c.endTime with
    | none => (s, { c with pc := .insertSlot })
    | some sl =>
      if sl.isBooked then (s, { c with pc := .answered .conflict })
      else (s, { c with pc := .updateSlot sl })
  | .insertSlot =>
    match Slot.create s.slots c.startTime c.endTime true with
    | none => (s, { c with pc := .answered .serverError })
    | some (slots1, sl) => ({ s with slots := slots1 }, { c with pc := .insertBooking sl.id })
  | .updateSlot sl =>
    match Slot.saveBooked s.slots sl with
    | none => (s, { c with pc := .answered .serverError })
    | some slots1 => ({ s with slots := slots1 }, { c with pc := .insertBooking sl.id })
  | .insertBooking slotId =>
    ((saveBooking s c.userId slotId).2, { c with pc := .answered (saveBooking s c.userId slotId).1 })
  | .answered _ => (s, c)

/-- Run handlers under a schedule: each entry names the handler that performs its next
storage operation. -/
def runSchedule (srv : Server) : Store → List Call → List Nat → Store × List Call
  | s, calls, [] => (s, calls)
  | s, calls, i :: rest =>
    match calls.get? i with
    | none => runSchedule srv s calls rest
    | some c => runSchedule srv (c.step srv s).1 (calls.set i (c.step srv s).2) rest

/-- The answers given so far by a list of handlers. -/
def answers (calls : List Call) : List Response :=
  calls.filterMap (fun c => match c.pc with | .answered r => some r | _ => none)

/-- Whether an answer is a success (201). -/
def Response.isCreated : Response → Bool
  | .created _ => true
  | _ => false

/-- Slots stored with a given pair of instants. -/
def slotsAt (s : Store) (startAt endAt : Int) : List Slot :=
  s.slots.filter (fun sl => sl.startAt == startAt && sl.endAt == endAt)

/-! ## `PATCH /bookings/:id/status` with a failing storage operation

The handler awaits three storage operations (lines 250, 258, 261); when one of them
throws, the `catch` block of line 280 answers 500 and the operations after it are not
run.  A storage operation that throws writes nothing. -/

/-- The awaited storage operation of the status handler that throws, if any. -/
inductive StatusFault
  | noFault
  | findBooking
  | saveBooking
  | releaseSlot
  deriving DecidableEq, Repr

/-- The handler of `PATCH /bookings/:id/status` when the given storage operation
throws. -/
def setStatusUnder (fault : StatusFault) (s : Store) (id : Nat) (status : Option String) :
    StatusResponse × Store :=
  match status.bind Status.ofString? with
  | none => (.invalidStatus, s)
  | some st =>
    if fault = .findBooking then (.serverError, s)
    else
      match s.bookings.find? (fun b => b.id == id) with
      | none => (.notFound, s)
      | some b =>
        if fault = .saveBooking then (.serverError, s)
        else
          let s1 : Store := { s with bookings := Booking.setStatus id st s.bookings }
          if st = .cancelled ∧ s.slots.any (fun sl => sl.id == b.slotId) then
            if fault = .releaseSlot then (.serverError, s1)
            else (.updated { b with status := st },
              { s1 with slots := Slot.setBooked b.slotId false s1.slots })
          else (.updated { b with status := st }, s1)

/-! ## `GET /slots` (`routes/slots.js`) -/

/-- Half an hour in milliseconds, `30 * 60 * 1000`. -/
def halfHour : Int := 30 * 60 * 1000

/-- Call `d.setHours(h, 0, 0, 0)`: the instant at which the local day of `t` shows
`h:00`. -/
def setHours (tz t h : Int) : Int := atLocal tz (localDay tz t) h 0

/-- The `while` loop of lines 38-51 with a bound on the number of iterations: `cur` is
`currentDate`, each iteration emits `(slotStart, slotEnd)` when the test of line 43
holds and advances `cur` by half an hour. -/
def slotLoop (tz toDate : Int) : Nat → Int → List (Int × Int)
  | 0, _ => []
  | fuel + 1, cur =>
    if cur < toDate then
      (if getHours tz cur ≥ 9 ∧ getHours tz (cur + halfHour) ≤ 17 then
        [(cur, cur + halfHour)] else []) ++
        slotLoop tz toDate fuel (cur + halfHour)
    else []

/-- Number of iterations after which the loop test `currentDate < toDate` fails. -/
def iterations (fromDate toDate : Int) : Nat :=
  ((toDate - fromDate + (halfHour - 1)) / halfHour).toNat

/-- Lines 34-51: the slots generated between `fromDate` and `toDate`. -/
def generateSlots (tz fromDate toDate : Int) : List (Int × Int) :=
  slotLoop tz toDate (iterations fromDate toDate) fromDate

/-- An element of the `slots` array of the answer (the `id` and `timeString` fields
are functions of `isBooked` and `startAt` and are left out). -/
structure SlotView where
  startAt : Int
  endAt : Int
  isBooked : Bool
  deriving DecidableEq, Repr

/-- The two 400 answers of `GET /slots`. -/
inductive RangeError
  | paramsRequired
  | invalidDateFormat
  deriving DecidableEq, Repr

/-- Answers of `GET /slots`. -/
inductive SlotsResponse
  | ok (slots : List SlotView)
  | badRequest (e : RangeError)
  deriving DecidableEq, Repr

/-- HTTP status code of an answer. -/
def SlotsResponse.code : SlotsResponse → Nat
  | .ok _ => 200
  | .badRequest _ => 400

/-- Lines 54-57: the stored slots with `startAt` in `[fromDate, toDate)` and
`isBooked: true`. -/
def bookedSlots (s : Store) (fromDate toDate : Int) : List Slot :=
  s.slots.filter (fun sl => decide (fromDate ≤ sl.startAt) && decide (sl.startAt < toDate)
    && sl.isBooked)

/-- Lines 60-76: the view of a generated slot; it is booked when some slot of
`bookedSlots` has the same `startAt`. -/
def overlay (booked : List Slot) (p : Int × Int) : SlotView :=
  ⟨p.1, p.2, booked.any (fun b => b.startAt == p.1)⟩

/-- Lines 79-87: the look-ahead test, with `today` the local midnight of the request
time. -/
def inLookAhead (tz now : Int) (v : SlotView) : Bool :=
  decide (setHours tz now 0 ≤ v.startAt) &&
    decide (v.startAt ≤ setHours tz now 0 + 7 * 24 * 60 * 60 * 1000)

/-- The views before the look-ahead filter (`availableSlots`, line 60) for instants
`f` and `t` parsed from `from` and `to`. -/
def availableSlots (tz : Int) (s : Store) (f t : Int) : List SlotView :=
  (generateSlots tz (setHours tz f 9) (setHours tz t 17)).map
    (overlay (bookedSlots s (setHours tz f 9) (setHours tz t 17)))

/-- The handler of `GET /slots` for an authenticated user; `now` is the value of
`new Date()` on line 79. -/
def listSlots (srv : Server) (now : Int) (s : Store) : DateInput → DateInput → SlotsResponse
  | .missing, _ => .badRequest .paramsRequired
  | _, .missing => .badRequest .paramsRequired
  | .malformed, _ => .badRequest .invalidDateFormat
  | _, .malformed => .badRequest .invalidDateFormat
  | .instant f, .instant t =>
    .ok ((availableSlots srv.tz s f t).filter (inLookAhead srv.tz now))

/-! ## Booking listings (`GET /my-bookings`, `GET /all-bookings`) -/

/-- How the storage engine orders the matched Bookings for
`sort({ "slotId.startAt": 1 })` and `sort({ "slotId.startAt": -1 })`.  MongoDB sorts
the stored documents, before population.  A stored Booking keeps an ObjectId in
`slotId`, so the sort path has no value in any document and all sort keys are equal:
the engine returns the matched documents in an order of its own, a function of the
Booking documents and not of the Slot collection. -/
structure SortEngine where
  sort : List Booking → List Booking
  perm : ∀ l, (sort l).Perm l

/-- An engine that returns the matched documents in storage order. -/
def scanOrder : SortEngine := ⟨fun l => l, fun l => List.Perm.refl l⟩

/-- An engine that returns the matched documents newest first. -/
def newestFirst : SortEngine := ⟨List.reverse, fun l => List.reverse_perm l⟩

/-- An element of the `bookings` array of both listings: the Booking with the instants
of its populated Slot (the user fields and the two display strings are left out). -/
structure BookingView where
  id : Nat
  startAt : Int
  endAt : Int
  status : Status
  deriving DecidableEq, Repr

/-- Population of `slotId`: the Slot with that `_id`, if it is stored. -/
def Booking.populateSlot (slots : List Slot) (b : Booking) : Option Slot :=
  slots.find? (fun sl => sl.id == b.slotId)

/-- The formatted entry of a Booking (lines 133-150 and 189-214); reading
`booking.slotId.startAt` throws when the Slot is not stored. -/
def Booking.view (slots : List Slot) (b : Booking) : Option BookingView :=
  (b.populateSlot slots).map (fun sl => ⟨b.id, sl.startAt, sl.endAt, b.status⟩)

/-- The `map` of lines 133 and 189: `none` when formatting some entry throws. -/
def formatBookings (slots : List Slot) (found : List Booking) : Option (List BookingView) :=
  if found.all (fun b => (b.view slots).isSome) then some (found.filterMap (Booking.view slots))
  else none

/-- Answers of `GET /my-bookings`. -/
inductive MyBookingsResponse
  | ok (bookings : List BookingView) (total : Nat)
  | serverError
  deriving DecidableEq, Repr

/-- The handler of `GET /my-bookings` (lines 125-162) for the authenticated user. -/
def myBookings (eng : SortEngine) (s : Store) (userId : Nat) : MyBookingsResponse :=
  match formatBookings s.slots (eng.sort (s.bookings.filter (fun b => b.userId == userId))) with
  | some views => .ok views views.length
  | none => .serverError

/-- The `query` of lines 169-172: a filter on `status` when the parameter is one of the
three allowed strings, no filter otherwise. -/
def statusQuery (status : Option String) (b : Booking) : Bool :=
  match status.bind Status.ofString? with
  | some st => b.status == st
  | none => true

/-- The `pagination` object of the answer; `pages` is `Math.ceil(total / limit)`, which
is not a number of pages when `limit` is 0. -/
structure Pagination where
  page : Nat
  limit : Nat
  total : Nat
  pages : Option Nat
  deriving DecidableEq, Repr

/-- Answers of `GET /all-bookings`. -/
inductive AllBookingsResponse
  | ok (bookings : List BookingView) (pagination : Pagination)
  | serverError
  deriving DecidableEq, Repr

/-- Lines 180-185: the documents of the requested page.  The engine sorts, skips
`(page - 1) * limit` documents and returns at most `limit` of the rest (all of them
when `limit` is 0). -/
def pageDocs (eng : SortEngine) (s : Store) (page limit : Nat) (status : Option String) :
    List Booking :=
  let skipped := (eng.sort (s.bookings.filter (statusQuery status))).drop ((page - 1) * limit)
  if limit = 0 then skipped else skipped.take limit

/-- The handler of `GET /all-bookings` (lines 165-231) for an admin; `page` and `limit`
are the numbers given in the query string, with defaults 1 and 20.  A negative skip
(`page` 0) is refused by the storage engine. -/
def allBookings (eng : SortEngine) (s : Store) (page limit : Option Nat)
    (status : Option String) : AllBookingsResponse :=
  let p := page.getD 1
  let l := limit.getD 20
  if p = 0 ∧ l ≠ 0 then .serverError
  else
    match formatBookings s.slots (pageDocs eng s p l status) with
    | some views =>
      .ok views ⟨p, l, (s.bookings.filter (statusQuery status)).length,
        if l = 0 then none
        else some (((s.bookings.filter (statusQuery status)).length + l - 1) / l)⟩
    | none => .serverError

/-- The entries are listed in non-decreasing order of `startAt`. -/
def AscendingStarts (views : List BookingView) : Prop :=
  (views.map (·.startAt)).Pairwise (· ≤ ·)

instance (views : List BookingView) : Decidable (AscendingStarts views) := by
  unfold AscendingStarts; infer_instance

/-! ## Role gate (`middleware/auth.js`) -/

/-- What the routes read of `req.user`. -/
structure User where
  id : Nat
  role : String
  deriving DecidableEq, Repr

/-- Outcome of the middleware returned by `requireRole(roles)`. -/
inductive Gate
  | unauthenticated
  | forbidden
  | next
  deriving DecidableEq, Repr

/-- The middleware `requireRole(roles)` (lines 45-61) on `req.user`. -/
def requireRole (roles : List String) (user : Option User) : Gate :=
  match user with
  | none => .unauthenticated
  | some u => if roles.contains u.role then .next else .forbidden

/-- Outcome of a route behind a gate: an answer of the gate, or the handler was run. -/
inductive Routed (α : Type)
  | denied (code : Nat)
  | handled (a : α)
  deriving DecidableEq, Repr

/-- A route registered with `requireRole(roles)` in front of its handler. -/
def gated {α : Type} (roles : List String) (user : Option User) (handler : α) : Routed α :=
  match requireRole roles user with
  | .unauthenticated => .denied 401
  | .forbidden => .denied 403
  | .next => .handled handler

/-- The route `GET /all-bookings` (line 165). -/
def allBookingsRoute (eng : SortEngine) (s : Store) (user : Option User)
    (page limit : Option Nat) (status : Option String) : Routed AllBookingsResponse :=
  gated ["admin"] user (allBookings eng s page limit status)

/-- The route `PATCH /bookings/:id/status` (lines 234-237). -/
def patchStatusRoute (s : Store) (user : Option User) (id : Nat) (status : Option String) :
    Routed (StatusResponse × Store) :=
  gated ["admin"] user (setStatus s id status)

/-! ## Further notions for request sequences and for the generator loop -/

/-- The pair of instants that identifies a Slot. -/
def Slot.pair (sl : Slot) : Int × Int := (sl.startAt, sl.endAt)

/-- A status request that moves a cancelled Booking to `confirmed` or `completed`. -/
def Request.revives (s : Store) : Request → Bool
  | .book _ _ _ _ => false
  | .patchStatus bookingId newStatus =>
    match newStatus.bind Status.ofString?, s.bookings.find? (fun b => b.id == bookingId) with
    | some st, some b => st != .cancelled && b.status == .cancelled
    | _, _ => false

/-- Databases produced from the empty one by requests none of which moves a cancelled
Booking back to `confirmed` or `completed`. -/
inductive ReachableWithoutRevival (srv : Server) : Store → Prop
  | empty : ReachableWithoutRevival srv Store.empty
  | step {s : Store} (r : Request) :
      ReachableWithoutRevival srv s → r.revives s = false →
      ReachableWithoutRevival srv (r.run srv s)

/-- Every Booking that is not cancelled references a stored Slot with `isBooked = true`. -/
def ActiveBookingsFlagged (s : Store) : Prop :=
  ∀ b ∈ s.bookings, b.status ≠ .cancelled →
    ∃ sl ∈ s.slots, sl.id = b.slotId ∧ sl.isBooked = true

instance (s : Store) : Decidable (ActiveBookingsFlagged s) := by
  unfold ActiveBookingsFlagged; infer_instance

/-- The number of iterations the `while` loop of lines 38-51 runs within a bound. -/
def loopCount (toDate : Int) : Nat → Int → Nat
  | 0, _ => 0
  | fuel + 1, cur =>
    if cur < toDate then 1 + loopCount toDate fuel (cur + halfHour) else 0

/-! ## Sample data -/

/-- The instant 2025-01-01T00:00Z, used as request time in examples. -/
def sampleNow : Int := 1735689600000

/-- Day number of 2025-01-06 (a Monday). -/
def sampleDay : Int := 20094

/-- 2025-01-06T09:00Z. -/
def nineAm : Int := atLocal 0 sampleDay 9 0

/-- 2025-01-06T09:30Z. -/
def nineThirty : Int := atLocal 0 sampleDay 9 30

/-- The value of `new Date("2025-01-06")` as a request field. -/
def janSixth : DateInput := .instant (atLocal 0 sampleDay 0 0)

/-- The value of `new Date("2025-01-07")` as a request field. -/
def janSeventh : DateInput := .instant (atLocal 0 (sampleDay + 1) 0 0)

/-- A database whose only Slot is a booked hour 09:00-10:00 (the `pre("save")` hook of
the model accepts it). -/
def hourSlotStore : Store := ⟨[⟨1, nineAm, nineAm + 3600000, true⟩], []⟩

/-- The database after users 7 and 8 raced for 09:00-09:30 (both were answered 201) and an
admin cancelled the booking of user 7. -/
def racedStore : Store :=
  ⟨[⟨1, nineAm, nineThirty, false⟩, ⟨2, nineAm, nineThirty, true⟩],
    [⟨1, 7, 1, .cancelled⟩, ⟨2, 8, 2, .confirmed⟩]⟩

/-- The database after a booking of 09:00-09:30 by user 7 was cancelled by an admin. -/
def cancelledStore : Store :=
  ⟨[⟨1, nineAm, nineThirty, false⟩], [⟨1, 7, 1, .cancelled⟩]⟩

/-- The database after user 7 booked 09:00-09:30. -/
def bookedStore : Store :=
  ⟨[⟨1, nineAm, nineThirty, true⟩], [⟨1, 7, 1, .confirmed⟩]⟩

/-- A user with the role `patient`. -/
def samplePatient : User := ⟨7, "patient"⟩

/-- A user with the role `admin`. -/
def sampleAdmin : User := ⟨1, "admin"⟩

/-- A database with 45 confirmed bookings of user 7, one per stored Slot. -/
def fortyFiveStore : Store :=
  ⟨(List.range 45).map (fun i =>
      ⟨i + 1, nineAm + (i : Int) * halfHour, nineAm + ((i : Int) + 1) * halfHour, true⟩),
    (List.range 45).map (fun i => ⟨i + 1, 7, i + 1, .confirmed⟩)⟩

/-- 2025-01-06T10:00Z. -/
def tenAm : Int := atLocal 0 sampleDay 10 0

/-- 2025-01-06T10:30Z. -/
def tenThirty : Int := atLocal 0 sampleDay 10 30

/-- User 7 books 09:00-09:30, then 10:00-10:30. -/
def bookNineThenTen : List Request :=
  [.book sampleNow 7 (.instant nineAm) (.instant nineThirty),
   .book sampleNow 7 (.instant tenAm) (.instant tenThirty)]

/-- User 7 books 10:00-10:30, then 09:00-09:30. -/
def bookTenThenNine : List Request :=
  [.book sampleNow 7 (.instant tenAm) (.instant tenThirty),
   .book sampleNow 7 (.instant nineAm) (.instant nineThirty)]

/-- The database after `bookNineThenTen`. -/
def nineThenTenStore : Store :=
  ⟨[⟨1, nineAm, nineThirty, true⟩, ⟨2, tenAm, tenThirty, true⟩],
    [⟨1, 7, 1, .confirmed⟩, ⟨2, 7, 2, .confirmed⟩]⟩

/-- The database after `bookTenThenNine`: the same Booking documents, the Slots in the
other order. -/
def tenThenNineStore : Store :=
  ⟨[⟨1, tenAm, tenThirty, true⟩, ⟨2, nineAm, nineThirty, true⟩],
    [⟨1, 7, 1, .confirmed⟩, ⟨2, 7, 2, .confirmed⟩]⟩

/-- The database after the booking of user 7 was cancelled and then set back to
`confirmed`. -/
def revivedStore : Store :=
  ⟨[⟨1, nineAm, nineThirty, false⟩], [⟨1, 7, 1, .confirmed⟩]⟩

/-- Book 09:00-09:30, cancel that booking, set it back to `confirmed`. -/
def bookCancelConfirm : List Request :=
  [.book sampleNow 7 (.instant nineAm) (.instant nineThirty),
   .patchStatus 1 (some "cancelled"),
   .patchStatus 1 (some "confirmed")]

/-- Book 09:00-09:30, cancel that booking, book 09:00-09:30 again. -/
def bookCancelBook : List Request :=
  [.book sampleNow 7 (.instant nineAm) (.instant nineThirty),
   .patchStatus 1 (some "cancelled"),
   .book sampleNow 8 (.instant nineAm) (.instant nineThirty)]

/-! ## Basic facts -/

theorem claimSlot_ne_badRequest (srv : Server) (s : Store) (userId : Nat) (st en : Int)
    (e : ValidationError) : (claimSlot srv s userId st en).1 ≠ .badRequest e := by
  unfold claimSlot saveBooking
  repeat' split
  all_goals simp

/-- Run alone, the storage steps of a handler are `claimSlot`. -/
theorem runSchedule_alone (srv : Server) (s : Store) (u : Nat) (st en : Int) :
    runSchedule srv s [Call.start u st en] [0, 0, 0, 0] =
      ((claimSlot srv s u st en).2,
        [⟨u, st, en, .answered (claimSlot srv s u st en).1⟩]) := by
  cases hb : s.bookings.find? (fun b => srv.slotPathFilter s.slots b st en) with
  | some b => simp [runSchedule, Call.start, Call.step, claimSlot, hb]
  | none =>
    cases hs : Slot.findOne s.slots st en with
    | none =>
      cases hc : Slot.create s.slots st en true with
      | none => simp [runSchedule, Call.start, Call.step, claimSlot, hb, hs, hc]
      | some p =>
        obtain ⟨slots1, sl⟩ := p
        simp [runSchedule, Call.start, Call.step, claimSlot, hb, hs, hc]
    | some sl =>
      cases hk : sl.isBooked with
      | true => simp [runSchedule, Call.start, Call.step, claimSlot, hb, hs, hk]
      | false =>
        cases hc : Slot.saveBooked s.slots sl with
        | none => simp [runSchedule, Call.start, Call.step, claimSlot, hb, hs, hk, hc]
        | some slots1 => simp [runSchedule, Call.start, Call.step, claimSlot, hb, hs, hk, hc]

/-- What an accepted request looks like. -/
theorem validateBooking_accepted {tz now : Int} {startAt endAt : DateInput} {st en : Int}
    (h : validateBooking tz now startAt endAt = .accepted st en) :
    startAt = .instant st ∧ endAt = .instant en ∧ now < st ∧
      9 ≤ getHours tz st ∧ getHours tz en ≤ 17 ∧ en - st = 30 * (1000 * 60) := by
  cases startAt <;> cases endAt <;> simp only [validateBooking] at h <;> try cases h
  split at h
  · cases h
  · split at h
    · cases h
    · split at h
      · cases h
      · rename_i h1 h2 h3
        simp only [Validated.accepted.injEq] at h
        obtain ⟨rfl, rfl⟩ := h
        refine ⟨rfl, rfl, ?_, ?_, ?_, ?_⟩ <;> omega

/-- The claim protocol never answers 400. -/
theorem claimSlot_code_ne_400 (srv : Server) (s : Store) (userId : Nat) (st en : Int) :
    (claimSlot srv s userId st en).1.code ≠ 400 := by
  unfold claimSlot saveBooking
  repeat' split
  all_goals simp [Response.code]

/-- A rejected request is answered 400 with the error of the validation block and the
database is returned as it was. -/
theorem bookSlot_of_rejected {srv : Server} {now : Int} {startAt endAt : DateInput}
    {e : ValidationError} (h : validateBooking srv.tz now startAt endAt = .rejected e)
    (s : Store) (userId : Nat) :
    bookSlot srv now s userId startAt endAt = (.badRequest e, s) := by
  unfold bookSlot
  rw [h]

/-- An accepted request is handed to the claim protocol. -/
theorem bookSlot_of_accepted {srv : Server} {now : Int} {startAt endAt : DateInput}
    {st en : Int} (h : validateBooking srv.tz now startAt endAt = .accepted st en)
    (s : Store) (userId : Nat) :
    bookSlot srv now s userId startAt endAt = claimSlot srv s userId st en := by
  unfold bookSlot
  rw [h]

/-- The validation block on two instants, as a chain of the three remaining checks. -/
theorem validateBooking_instant (tz now st en : Int) :
    validateBooking tz now (.instant st) (.instant en) =
      if st ≤ now then .rejected .pastSlot
      else if getHours tz st < 9 ∨ getHours tz en > 17 then .rejected .outsideBusinessHours
      else if en - st ≠ 30 * (1000 * 60) then .rejected .wrongDuration
      else .accepted st en := by
  simp only [validateBooking]

theorem validateBooking_past {tz now st en : Int} (h : st ≤ now) :
    validateBooking tz now (.instant st) (.instant en) = .rejected .pastSlot := by
  rw [validateBooking_instant, if_pos h]

theorem validateBooking_hours {tz now st en : Int} (h : now < st)
    (hh : getHours tz st < 9 ∨ getHours tz en > 17) :
    validateBooking tz now (.instant st) (.instant en) = .rejected .outsideBusinessHours := by
  rw [validateBooking_instant, if_neg (not_le.mpr h), if_pos hh]

theorem validateBooking_duration {tz now st en : Int} (h : now < st)
    (hh : ¬ (getHours tz st < 9 ∨ getHours tz en > 17)) (hd : en - st ≠ 30 * (1000 * 60)) :
    validateBooking tz now (.instant st) (.instant en) = .rejected .wrongDuration := by
  rw [validateBooking_instant, if_neg (not_le.mpr h), if_neg hh, if_pos hd]

theorem validateBooking_pass {tz now st en : Int} (h : now < st)
    (hh : ¬ (getHours tz st < 9 ∨ getHours tz en > 17)) (hd : en - st = 30 * (1000 * 60)) :
    validateBooking tz now (.instant st) (.instant en) = .accepted st en := by
  rw [validateBooking_instant, if_neg (not_le.mpr h), if_neg hh, if_neg (not_not.mpr hd)]

/-- The local hour of a clock time `h:m` on day `d`. -/
theorem getHours_atLocal (tz d h m : Int) (h0 : 0 ≤ h) (h1 : h < 24) (m0 : 0 ≤ m)
    (m1 : m < 60) : getHours tz (atLocal tz d h m) = h := by
  unfold getHours atLocal
  omega

/-- A 400 answer comes from the validation block. -/
theorem rejected_of_badRequest {srv : Server} {now : Int} {s : Store} {userId : Nat}
    {startAt endAt : DateInput} {e : ValidationError}
    (h : (bookSlot srv now s userId startAt endAt).1 = .badRequest e) :
    validateBooking srv.tz now startAt endAt = .rejected e := by
  cases hv : validateBooking srv.tz now startAt endAt with
  | rejected e2 =>
    rw [bookSlot_of_rejected hv] at h
    simp only [Response.badRequest.injEq] at h
    rw [h]
  | accepted a b =>
    rw [bookSlot_of_accepted hv] at h
    exact absurd h (claimSlot_ne_badRequest _ _ _ _ _ _)

/-- The slots emitted by the loop: those at `cur + k` half hours, before `toDate`, that
pass the test of line 43. -/
theorem mem_slotLoop (tz toDate : Int) (n : Nat) (cur a b : Int) :
    (a, b) ∈ slotLoop tz toDate n cur ↔
      ∃ k : Nat, k < n ∧ a = cur + k * halfHour ∧ a < toDate ∧ 9 ≤ getHours tz a ∧
        getHours tz (a + halfHour) ≤ 17 ∧ b = a + halfHour := by
  induction n generalizing cur with
  | zero => simp [slotLoop]
  | succ n ih =>
    have hh : halfHour = 1800000 := by decide
    unfold slotLoop
    by_cases hc : cur < toDate
    · rw [if_pos hc, List.mem_append, ih]
      constructor
      · rintro (h | ⟨k, hk, ha, hlt, h9, h17, hb⟩)
        · by_cases hg : getHours tz cur ≥ 9 ∧ getHours tz (cur + halfHour) ≤ 17
          · rw [if_pos hg] at h
            simp only [List.mem_singleton, Prod.mk.injEq] at h
            obtain ⟨rfl, rfl⟩ := h
            exact ⟨0, by omega, by simp, hc, hg.1, hg.2, rfl⟩
          · rw [if_neg hg] at h
            simp at h
        · exact ⟨k + 1, by omega, by push_cast; rw [ha]; ring, hlt, h9, h17, hb⟩
      · rintro ⟨k, hk, ha, hlt, h9, h17, hb⟩
        cases k with
        | zero =>
          left
          simp only [Nat.cast_zero, zero_mul, add_zero] at ha
          subst ha
          rw [if_pos ⟨h9, h17⟩]
          simp [hb]
        | succ k =>
          right
          exact ⟨k, by omega, by push_cast at ha; rw [ha]; ring, hlt, h9, h17, hb⟩
    · rw [if_neg hc]
      simp only [List.not_mem_nil, false_iff]
      rintro ⟨k, hk, ha, hlt, h9, h17, hb⟩
      rw [hh] at ha
      omega

/-- The generated slots: the half-hour steps from `fromDate` that lie before `toDate`
and pass the test of line 43. -/
theorem mem_generateSlots (tz fromDate toDate a b : Int) :
    (a, b) ∈ generateSlots tz fromDate toDate ↔
      ∃ k : Nat, a = fromDate + k * halfHour ∧ a < toDate ∧ 9 ≤ getHours tz a ∧
        getHours tz (a + halfHour) ≤ 17 ∧ b = a + halfHour := by
  have hh : halfHour = 1800000 := by decide
  unfold generateSlots
  rw [mem_slotLoop]
  constructor
  · rintro ⟨k, _, h⟩
    exact ⟨k, h⟩
  · rintro ⟨k, ha, hlt, h⟩
    refine ⟨k, ?_, ha, hlt, h⟩
    unfold iterations
    rw [hh] at ha ⊢
    omega

/-- Once the loop test has failed, further iterations add nothing: every bound from
`iterations` on gives the same list. -/
theorem slotLoop_fuel (tz toDate : Int) (n m : Nat) (cur : Int)
    (hn : iterations cur toDate ≤ n) (hm : iterations cur toDate ≤ m) :
    slotLoop tz toDate n cur = slotLoop tz toDate m cur := by
  have hh : halfHour = 1800000 := by decide
  induction n generalizing m cur with
  | zero =>
    have hc : ¬ cur < toDate := by
      unfold iterations at hn; rw [hh] at hn; omega
    cases m <;> simp [slotLoop, hc]
  | succ n ih =>
    cases m with
    | zero =>
      have hc : ¬ cur < toDate := by
        unfold iterations at hm; rw [hh] at hm; omega
      simp [slotLoop, hc]
    | succ m =>
      unfold slotLoop
      by_cases hc : cur < toDate
      · rw [if_pos hc, if_pos hc]
        congr 1
        apply ih
        · unfold iterations at hn ⊢; rw [hh] at hn ⊢; omega
        · unfold iterations at hm ⊢; rw [hh] at hm ⊢; omega
      · rw [if_neg hc, if_neg hc]

/-- The strings accepted by `allowedStatuses.includes` are those with an enum value. -/
theorem Status.ofString?_isSome_iff (str : String) :
    (Status.ofString? str).isSome = true ↔ str ∈ allowedStatuses := by
  unfold Status.ofString? allowedStatuses
  by_cases h1 : str = "confirmed"
  · simp [h1]
  · by_cases h2 : str = "cancelled"
    · simp [h2]
    · by_cases h3 : str = "completed"
      · simp [h3]
      · simp [h1, h2, h3]

/-- Without a failing storage operation the handler is `setStatus`. -/
theorem setStatusUnder_noFault (s : Store) (id : Nat) (status : Option String) :
    setStatusUnder .noFault s id status = setStatus s id status := by
  unfold setStatusUnder setStatus
  cases status.bind Status.ofString? with
  | none => rfl
  | some st =>
    simp only [reduceCtorEq, if_false]
    cases s.bookings.find? (fun b => b.id == id) with
    | none => rfl
    | some b =>
      simp only
      split <;> rfl

/-- The status write changes the first Booking with the id and nothing else. -/
theorem Booking.setStatus_of_find {l : List Booking} {id : Nat} {b : Booking} (st : Status)
    (h : l.find? (fun x => x.id == id) = some b) :
    ∃ pre post, l = pre ++ b :: post ∧ (∀ x ∈ pre, x.id ≠ id) ∧ b.id = id ∧
      Booking.setStatus id st l = pre ++ { b with status := st } :: post := by
  induction l with
  | nil => simp at h
  | cons x rest ih =>
    by_cases hx : x.id = id
    · have : x = b := by
        rw [List.find?_cons_of_pos _ (by simpa using hx)] at h
        exact Option.some.inj h
      subst this
      exact ⟨[], rest, rfl, by simp, hx, by simp [Booking.setStatus, hx]⟩
    · have h2 : rest.find? (fun x => x.id == id) = some b := by
        rw [List.find?_cons_of_neg _ (by simpa using hx)] at h
        exact h
      obtain ⟨pre, post, hl, hpre, hb, hset⟩ := ih h2
      refine ⟨x :: pre, post, by simp [hl], ?_, hb, by simp [Booking.setStatus, hx, hset]⟩
      intro y hy
      rcases List.mem_cons.mp hy with rfl | hy
      · exact hx
      · exact hpre y hy

/-- The flag write changes the first Slot with the id and nothing else. -/
theorem Slot.setBooked_of_split {p q : List Slot} {sl : Slot} {id : Nat} (v : Bool)
    (hp : ∀ x ∈ p, x.id ≠ id) (hs : sl.id = id) :
    Slot.setBooked id v (p ++ sl :: q) = p ++ { sl with isBooked := v } :: q := by
  induction p with
  | nil => simp [Slot.setBooked, hs]
  | cons x rest ih =>
    have hx : x.id ≠ id := hp x (List.mem_cons_self _ _)
    have := ih (fun y hy => hp y (List.mem_cons_of_mem _ hy))
    simp [Slot.setBooked, hx, this]

/-- The flag write leaves a collection without the id as it is. -/
theorem Slot.setBooked_of_absent {l : List Slot} {id : Nat} (v : Bool)
    (h : ∀ x ∈ l, x.id ≠ id) : Slot.setBooked id v l = l := by
  induction l with
  | nil => rfl
  | cons x rest ih =>
    have hx : x.id ≠ id := h x (List.mem_cons_self _ _)
    simp [Slot.setBooked, hx, ih (fun y hy => h y (List.mem_cons_of_mem _ hy))]

/-- A collection that holds the id splits at its first Slot with the id. -/
theorem Slot.split_of_any {l : List Slot} {id : Nat}
    (h : l.any (fun sl => sl.id == id) = true) :
    ∃ p sl q, l = p ++ sl :: q ∧ (∀ x ∈ p, x.id ≠ id) ∧ sl.id = id := by
  induction l with
  | nil => simp at h
  | cons x rest ih =>
    by_cases hx : x.id = id
    · exact ⟨[], x, rest, rfl, by simp, hx⟩
    · have h2 : rest.any (fun sl => sl.id == id) = true := by
        simpa [List.any_cons, hx] using h
      obtain ⟨p, sl, q, hl, hp, hs⟩ := ih h2
      refine ⟨x :: p, sl, q, by simp [hl], ?_, hs⟩
      intro y hy
      rcases List.mem_cons.mp hy with rfl | hy
      · exact hx
      · exact hp y hy

/-- The lookup by id after a status write returns the written Booking. -/
theorem Booking.find?_setStatus (l : List Booking) (id : Nat) (st : Status) :
    (Booking.setStatus id st l).find? (fun x => x.id == id) =
      (l.find? (fun x => x.id == id)).map (fun b => { b with status := st }) := by
  induction l with
  | nil => rfl
  | cons x rest ih =>
    by_cases hx : x.id = id
    · simp [Booking.setStatus, hx]
    · have hn : ¬ (x.id == id) = true := by simpa using hx
      simp only [Booking.setStatus, hx, if_false]
      have e1 : ∀ l : List Booking,
          List.find? (fun x => x.id == id) (x :: l) = List.find? (fun x => x.id == id) l :=
        fun l => List.find?_cons_of_neg l hn
      rw [e1, e1, ih]

/-- Writing the same status twice is writing it once. -/
theorem Booking.setStatus_idem (l : List Booking) (id : Nat) (st : Status) :
    Booking.setStatus id st (Booking.setStatus id st l) = Booking.setStatus id st l := by
  induction l with
  | nil => rfl
  | cons x rest ih =>
    by_cases hx : x.id = id
    · simp [Booking.setStatus, hx]
    · simp [Booking.setStatus, hx, ih]

/-- Writing the same flag twice is writing it once. -/
theorem Slot.setBooked_idem (l : List Slot) (id : Nat) (v : Bool) :
    Slot.setBooked id v (Slot.setBooked id v l) = Slot.setBooked id v l := by
  induction l with
  | nil => rfl
  | cons x rest ih =>
    by_cases hx : x.id = id
    · simp [Slot.setBooked, hx]
    · simp [Slot.setBooked, hx, ih]

/-- A flag write keeps the ids of a collection. -/
theorem Slot.any_id_setBooked (l : List Slot) (id j : Nat) (v : Bool) :
    (Slot.setBooked id v l).any (fun sl => sl.id == j) = l.any (fun sl => sl.id == j) := by
  induction l with
  | nil => rfl
  | cons x rest ih =>
    by_cases hx : x.id = id
    · simp [Slot.setBooked, hx]
    · simp [Slot.setBooked, hx, ih]

/-! ## Facts about `GET /slots` -/

/-- Nothing is generated when `toDate` is not after `fromDate`. -/
theorem generateSlots_of_le {tz fromDate toDate : Int} (h : toDate ≤ fromDate) :
    generateSlots tz fromDate toDate = [] := by
  have hi : iterations fromDate toDate = 0 := by
    unfold iterations halfHour; omega
  unfold generateSlots
  rw [hi]
  rfl

/-- A returned view is a generated slot with its overlay, inside the look-ahead. -/
theorem mem_listSlots {srv : Server} {now : Int} {s : Store} {f t : Int}
    {views : List SlotView} (h : listSlots srv now s (.instant f) (.instant t) = .ok views)
    (v : SlotView) :
    v ∈ views ↔
      (∃ p ∈ generateSlots srv.tz (setHours srv.tz f 9) (setHours srv.tz t 17),
        v = overlay (bookedSlots s (setHours srv.tz f 9) (setHours srv.tz t 17)) p) ∧
      setHours srv.tz now 0 ≤ v.startAt ∧
      v.startAt ≤ setHours srv.tz now 0 + 7 * 24 * 60 * 60 * 1000 := by
  simp only [listSlots, SlotsResponse.ok.injEq] at h
  subst h
  simp only [List.mem_filter, availableSlots, List.mem_map, inLookAhead, Bool.and_eq_true,
    decide_eq_true_eq]
  constructor
  · rintro ⟨⟨p, hp, rfl⟩, h1, h2⟩
    exact ⟨⟨p, hp, rfl⟩, h1, h2⟩
  · rintro ⟨⟨p, hp, rfl⟩, h1, h2⟩
    exact ⟨⟨p, hp, rfl⟩, h1, h2⟩

/-- The overlay of a generated slot is booked exactly when a booked Slot is stored with
the same `startAt`. -/
theorem overlay_isBooked_iff {tz : Int} (s : Store) {fromDate toDate : Int} {p : Int × Int}
    (hp : p ∈ generateSlots tz fromDate toDate) :
    (overlay (bookedSlots s fromDate toDate) p).isBooked = true ↔
      ∃ sl ∈ s.slots, sl.startAt = p.1 ∧ sl.isBooked = true := by
  obtain ⟨a, b⟩ := p
  obtain ⟨k, ha, hlt, _, _, _⟩ := (mem_generateSlots tz fromDate toDate a b).mp hp
  have hge : fromDate ≤ a := by
    have : (0 : Int) ≤ k * halfHour := by
      have : (0 : Int) ≤ (k : Int) := Int.ofNat_nonneg k
      unfold halfHour; omega
    omega
  simp only [overlay, bookedSlots, List.any_eq_true, List.mem_filter, Bool.and_eq_true,
    decide_eq_true_eq, beq_iff_eq]
  constructor
  · rintro ⟨sl, ⟨hm, _, hb⟩, hs⟩
    exact ⟨sl, hm, hs, hb⟩
  · rintro ⟨sl, hm, hs, hb⟩
    exact ⟨sl, ⟨hm, ⟨by omega, by omega⟩, hb⟩, hs⟩

/-! ## Facts about a successful booking -/

/-- A fresh id is larger than every id in use. -/
theorem lt_freshId {ids : List Nat} {x : Nat} (h : x ∈ ids) : x < freshId ids := by
  unfold freshId
  induction ids with
  | nil => simp at h
  | cons y rest ih =>
    simp only [List.foldr_cons]
    rcases List.mem_cons.mp h with rfl | h
    · omega
    · have := ih h
      omega

/-- What a 201 answer of the claim protocol has written: a Booking appended to the
collection, and either a new flagged Slot appended, or the flag of the Slot found. -/
theorem claimSlot_created {srv : Server} {s s1 : Store} {userId : Nat} {st en : Int}
    {bk : Booking} (h : claimSlot srv s userId st en = (.created bk, s1)) :
    bk = ⟨freshId (s.bookings.map (·.id)), userId, bk.slotId, .confirmed⟩ ∧
    s1.bookings = s.bookings ++ [bk] ∧
    ((Slot.findOne s.slots st en = none ∧
        bk.slotId = freshId (s.slots.map (·.id)) ∧
        s1.slots = s.slots ++ [⟨bk.slotId, st, en, true⟩]) ∨
      (∃ sl, Slot.findOne s.slots st en = some sl ∧ sl.isBooked = false ∧
        bk.slotId = sl.id ∧ s1.slots = Slot.setBooked sl.id true s.slots)) := by
  unfold claimSlot at h
  cases hq : s.bookings.find? (fun b => srv.slotPathFilter s.slots b st en) with
  | some b => simp [hq] at h
  | none =>
    simp only [hq] at h
    cases hs : Slot.findOne s.slots st en with
    | none =>
      simp only [hs, Slot.create, Slot.saveRefused, saveBooking, Booking.create] at h
      by_cases hr : en ≤ st
      · simp [hr] at h
      · by_cases hu : (s.bookings.any fun b =>
            b.slotId == freshId (s.slots.map (·.id))) = true
        · simp [hr, hu] at h
        · simp only [hr, hu, decide_False, Bool.false_eq_true, if_false, Prod.mk.injEq,
            Response.created.injEq] at h
          obtain ⟨h1, h2⟩ := h
          subst h1
          subst h2
          exact ⟨rfl, rfl, Or.inl ⟨rfl, rfl, rfl⟩⟩
    | some sl =>
      simp only [hs] at h
      cases hb : sl.isBooked with
      | true => simp [hb] at h
      | false =>
        simp only [hb, Slot.saveBooked, Slot.saveRefused, saveBooking, Booking.create] at h
        by_cases hr : sl.endAt ≤ sl.startAt
        · simp [hr] at h
        · by_cases hu : (s.bookings.any fun b => b.slotId == sl.id) = true
          · simp [hr, hu] at h
          · simp only [hr, hu, decide_False, Bool.false_eq_true, if_false, Prod.mk.injEq,
              Response.created.injEq] at h
            obtain ⟨h1, h2⟩ := h
            subst h1
            subst h2
            exact ⟨rfl, rfl, Or.inr ⟨sl, rfl, hb, rfl, rfl⟩⟩

/-- A 201 answer of `POST /book` comes from an accepted request. -/
theorem accepted_of_created {srv : Server} {now : Int} {s s1 : Store} {userId : Nat}
    {startAt endAt : DateInput} {bk : Booking}
    (h : bookSlot srv now s userId startAt endAt = (.created bk, s1)) :
    ∃ st en, validateBooking srv.tz now startAt endAt = .accepted st en ∧
      claimSlot srv s userId st en = (.created bk, s1) := by
  cases hv : validateBooking srv.tz now startAt endAt with
  | rejected e =>
    rw [bookSlot_of_rejected hv] at h
    simp at h
  | accepted st en =>
    rw [bookSlot_of_accepted hv] at h
    exact ⟨st, en, rfl, h⟩

/-- The listing reads the database through `bookedSlots` only. -/
theorem listSlots_congr {s s2 : Store}
    (h : ∀ fromDate toDate, bookedSlots s2 fromDate toDate = bookedSlots s fromDate toDate)
    (srv : Server) (now : Int) (dateFrom dateTo : DateInput) :
    listSlots srv now s2 dateFrom dateTo = listSlots srv now s dateFrom dateTo := by
  cases dateFrom <;> cases dateTo <;> simp only [listSlots, availableSlots, h]

/-- A cancellation of a stored booking: the status is written, then the flag of the
referenced slot. -/
theorem setStatus_cancelled_eq {s : Store} {id : Nat} {b : Booking}
    (h : s.bookings.find? (fun x => x.id == id) = some b) :
    setStatus s id (some "cancelled") =
      (.updated { b with status := .cancelled },
        ⟨Slot.setBooked b.slotId false s.slots,
          Booking.setStatus id .cancelled s.bookings⟩) := by
  have hst : (some "cancelled").bind Status.ofString? = some .cancelled := by decide
  unfold setStatus
  rw [hst, h]
  simp only [true_and]
  by_cases ha : s.slots.any (fun sl => sl.id == b.slotId) = true
  · rw [if_pos ha]
  · rw [if_neg ha]
    have hab : ∀ x ∈ s.slots, x.id ≠ b.slotId := by
      simpa using ha
    rw [Slot.setBooked_of_absent false hab]

/-- Booking a slot and cancelling that booking leaves the Slot collection as it was, up
to a new Slot with `isBooked = false` at its end. -/
theorem slots_after_book_cancel {srv : Server} {s s1 : Store} {userId : Nat} {st en : Int}
    {bk : Booking} (hid : (s.slots.map (·.id)).Nodup)
    (h : claimSlot srv s userId st en = (.created bk, s1)) :
    setStatus s1 bk.id (some "cancelled") =
      (.updated { bk with status := .cancelled },
        ⟨Slot.setBooked bk.slotId false s1.slots,
          Booking.setStatus bk.id .cancelled s1.bookings⟩) ∧
    ((Slot.findOne s.slots st en = none ∧
        Slot.setBooked bk.slotId false s1.slots = s.slots ++ [⟨bk.slotId, st, en, false⟩]) ∨
      (∃ sl, Slot.findOne s.slots st en = some sl ∧ sl.isBooked = false ∧
        bk.slotId = sl.id ∧ Slot.setBooked bk.slotId false s1.slots = s.slots)) := by
  obtain ⟨hbk, hbs, hcase⟩ := claimSlot_created h
  have hfind : s1.bookings.find? (fun x => x.id == bk.id) = some bk := by
    rw [hbs, List.find?_append]
    have hnone : s.bookings.find? (fun x => x.id == bk.id) = none := by
      rw [List.find?_eq_none]
      intro x hx
      have : x.id < freshId (s.bookings.map (·.id)) :=
        lt_freshId (List.mem_map_of_mem _ hx)
      have hbid : bk.id = freshId (s.bookings.map (·.id)) := by rw [hbk]
      simp only [beq_iff_eq]
      omega
    simp [hnone]
  refine ⟨setStatus_cancelled_eq hfind, ?_⟩
  rcases hcase with ⟨hs, hfresh, hsl⟩ | ⟨sl, hs, hb, hslid, hsl⟩
  · left
    refine ⟨hs, ?_⟩
    rw [hsl]
    have hp : ∀ x ∈ s.slots, x.id ≠ bk.slotId := by
      intro x hx
      have : x.id < freshId (s.slots.map (·.id)) := lt_freshId (List.mem_map_of_mem _ hx)
      omega
    have e : Slot.setBooked bk.slotId false (s.slots ++ [⟨bk.slotId, st, en, true⟩]) =
        s.slots ++ [⟨bk.slotId, st, en, false⟩] :=
      Slot.setBooked_of_split false hp rfl
    exact e
  · right
    refine ⟨sl, hs, hb, hslid, ?_⟩
    have hmem : sl ∈ s.slots := List.mem_of_find?_eq_some hs
    have hany : s.slots.any (fun x => x.id == sl.id) = true := by
      rw [List.any_eq_true]
      exact ⟨sl, hmem, by simp⟩
    obtain ⟨p, x, q, hl, hp, hx⟩ := Slot.split_of_any hany
    have hxm : x ∈ s.slots := by rw [hl]; simp
    have hxeq : x = sl := List.inj_on_of_nodup_map hid hxm hmem hx
    subst hxeq
    have e2 : Slot.setBooked x.id false (p ++ { x with isBooked := true } :: q) =
        p ++ { x with isBooked := false } :: q :=
      Slot.setBooked_of_split false hp rfl
    rw [hsl, hslid, hl, Slot.setBooked_of_split true hp rfl, e2]
    cases x
    simp only at hb
    subst hb
    rfl

/-- Booking a slot and cancelling that booking does not change what the listing reads. -/
theorem bookedSlots_after_book_cancel {srv : Server} {s s1 : Store} {userId : Nat}
    {st en : Int} {bk : Booking} (hid : (s.slots.map (·.id)).Nodup)
    (h : claimSlot srv s userId st en = (.created bk, s1)) (fromDate toDate : Int) :
    bookedSlots (setStatus s1 bk.id (some "cancelled")).2 fromDate toDate =
      bookedSlots s fromDate toDate := by
  obtain ⟨h1, h2⟩ := slots_after_book_cancel hid h
  rw [h1]
  rcases h2 with ⟨_, h2⟩ | ⟨sl, _, _, _, h2⟩
  · simp [bookedSlots, h2, List.filter_append]
  · simp [bookedSlots, h2]

/-! ## Facts about request sequences -/

/-- Induction over the databases that request sequences produce. -/
theorem Reachable.induct {srv : Server} {P : Store → Prop} (h0 : P Store.empty)
    (hstep : ∀ s r, P s → P (Request.run srv s r)) {s : Store} (h : Reachable srv s) :
    P s := by
  obtain ⟨rs, rfl⟩ := h
  have key : ∀ (rs : List Request) (s0 : Store), P s0 → P (runRequests srv s0 rs) := by
    intro rs
    induction rs with
    | nil => intro s0 h; exact h
    | cons r rest ih =>
      intro s0 h
      exact ih (Request.run srv s0 r) (hstep s0 r h)
  exact key rs Store.empty h0

/-- A flag write keeps ids and instants of every Slot, in order. -/
theorem Slot.map_setBooked (l : List Slot) (id : Nat) (v : Bool) :
    (Slot.setBooked id v l).map (fun sl => (sl.id, sl.startAt, sl.endAt)) =
      l.map (fun sl => (sl.id, sl.startAt, sl.endAt)) := by
  induction l with
  | nil => rfl
  | cons x rest ih =>
    by_cases hx : x.id = id
    · simp [Slot.setBooked, hx]
    · simp [Slot.setBooked, hx, ih]

/-- A flag write keeps the pairs of instants, in order. -/
theorem Slot.map_pair_setBooked (l : List Slot) (id : Nat) (v : Bool) :
    (Slot.setBooked id v l).map Slot.pair = l.map Slot.pair := by
  have h := congrArg (List.map (fun t : Nat × Int × Int => (t.2.1, t.2.2)))
    (Slot.map_setBooked l id v)
  simpa [List.map_map, Function.comp, Slot.pair] using h

/-- A status write keeps id, user and slot of every Booking, in order. -/
theorem Booking.map_setStatus (l : List Booking) (id : Nat) (st : Status) :
    (Booking.setStatus id st l).map (fun b => (b.id, b.userId, b.slotId)) =
      l.map (fun b => (b.id, b.userId, b.slotId)) := by
  induction l with
  | nil => rfl
  | cons x rest ih =>
    by_cases hx : x.id = id
    · simp [Booking.setStatus, hx]
    · simp [Booking.setStatus, hx, ih]

/-- A status write keeps the slot references, in order. -/
theorem Booking.map_slotId_setStatus (l : List Booking) (id : Nat) (st : Status) :
    (Booking.setStatus id st l).map (·.slotId) = l.map (·.slotId) := by
  have h := congrArg (List.map (fun t : Nat × Nat × Nat => t.2.2))
    (Booking.map_setStatus l id st)
  simpa [List.map_map, Function.comp] using h

/-- What the status handler does to the database, whatever its answer. -/
theorem setStatus_store (s : Store) (id : Nat) (status : Option String) :
    (setStatus s id status).2 = s ∨
    ∃ st b, status.bind Status.ofString? = some st ∧
      s.bookings.find? (fun x => x.id == id) = some b ∧
      (setStatus s id status).2.bookings = Booking.setStatus id st s.bookings ∧
      ((st = .cancelled ∧
          (setStatus s id status).2.slots = Slot.setBooked b.slotId false s.slots) ∨
        (st ≠ .cancelled ∧ (setStatus s id status).2.slots = s.slots)) := by
  unfold setStatus
  cases hst : status.bind Status.ofString? with
  | none => left; rfl
  | some st =>
    cases hf : s.bookings.find? (fun b => b.id == id) with
    | none => left; rfl
    | some b =>
      right
      refine ⟨st, b, rfl, rfl, ?_, ?_⟩
      · simp only; split <;> rfl
      · by_cases hc : st = .cancelled
        · left
          refine ⟨hc, ?_⟩
          simp only
          by_cases ha : s.slots.any (fun sl => sl.id == b.slotId) = true
          · rw [if_pos ⟨hc, ha⟩]
          · rw [if_neg (fun h => ha h.2)]
            have hab : ∀ x ∈ s.slots, x.id ≠ b.slotId := by simpa using ha
            exact (Slot.setBooked_of_absent false hab).symm
        · right
          refine ⟨hc, ?_⟩
          simp only
          rw [if_neg (fun h => hc h.1)]

/-- What the claim protocol does to the database, whatever its answer: nothing; or a
new flagged Slot for the pair is appended; or the Slot found for the pair is flagged;
in both cases with or without a new Booking for that Slot. -/
theorem claimSlot_store (srv : Server) (s : Store) (userId : Nat) (st en : Int) :
    (claimSlot srv s userId st en).2 = s ∨
    (Slot.findOne s.slots st en = none ∧ st < en ∧
      ((claimSlot srv s userId st en).2 =
          ⟨s.slots ++ [⟨freshId (s.slots.map (·.id)), st, en, true⟩], s.bookings⟩ ∨
        ((∀ b ∈ s.bookings, b.slotId ≠ freshId (s.slots.map (·.id))) ∧
          (claimSlot srv s userId st en).2 =
            ⟨s.slots ++ [⟨freshId (s.slots.map (·.id)), st, en, true⟩],
              s.bookings ++ [⟨freshId (s.bookings.map (·.id)), userId,
                freshId (s.slots.map (·.id)), .confirmed⟩]⟩))) ∨
    (∃ sl, Slot.findOne s.slots st en = some sl ∧ sl.isBooked = false ∧
      ((claimSlot srv s userId st en).2 =
          ⟨Slot.setBooked sl.id true s.slots, s.bookings⟩ ∨
        ((∀ b ∈ s.bookings, b.slotId ≠ sl.id) ∧
          (claimSlot srv s userId st en).2 =
            ⟨Slot.setBooked sl.id true s.slots,
              s.bookings ++ [⟨freshId (s.bookings.map (·.id)), userId, sl.id,
                .confirmed⟩]⟩))) := by
  unfold claimSlot
  cases hq : s.bookings.find? (fun b => srv.slotPathFilter s.slots b st en) with
  | some b => left; rfl
  | none =>
    simp only
    cases hs : Slot.findOne s.slots st en with
    | none =>
      simp only [Slot.create, Slot.saveRefused, saveBooking, Booking.create]
      by_cases hr : en ≤ st
      · left; simp [hr]
      · right; left
        refine ⟨by first | rfl | trivial, by omega, ?_⟩
        by_cases hu : (s.bookings.any fun b =>
            b.slotId == freshId (s.slots.map (·.id))) = true
        · left; simp [hr, hu]
        · right
          refine ⟨by simpa using hu, ?_⟩
          simp [hr, hu]
    | some sl =>
      simp only
      cases hb : sl.isBooked with
      | true => left; simp
      | false =>
        simp only [Slot.saveBooked, Slot.saveRefused, saveBooking, Booking.create]
        by_cases hr : sl.endAt ≤ sl.startAt
        · left; simp [hr]
        · right; right
          refine ⟨sl, rfl, hb, ?_⟩
          by_cases hu : (s.bookings.any fun b => b.slotId == sl.id) = true
          · left; simp [hr, hu]
          · right
            refine ⟨by simpa using hu, ?_⟩
            simp [hr, hu]

/-- The database after `POST /book` is the one before it, or the one the claim protocol
leaves for the accepted instants. -/
theorem bookSlot_store (srv : Server) (now : Int) (s : Store) (userId : Nat)
    (startAt endAt : DateInput) :
    (bookSlot srv now s userId startAt endAt).2 = s ∨
    ∃ st en, validateBooking srv.tz now startAt endAt = .accepted st en ∧
      (bookSlot srv now s userId startAt endAt).2 = (claimSlot srv s userId st en).2 := by
  cases hv : validateBooking srv.tz now startAt endAt with
  | rejected e => left; rw [bookSlot_of_rejected hv]
  | accepted st en => right; exact ⟨st, en, rfl, by rw [bookSlot_of_accepted hv]⟩

/-- A Slot after a flag write is a Slot from before with the same id and instants. -/
theorem Slot.of_mem_setBooked {l : List Slot} {id : Nat} {v : Bool} {x : Slot}
    (h : x ∈ Slot.setBooked id v l) :
    ∃ y ∈ l, y.id = x.id ∧ y.startAt = x.startAt ∧ y.endAt = x.endAt := by
  induction l with
  | nil => simp [Slot.setBooked] at h
  | cons a rest ih =>
    by_cases ha : a.id = id
    · simp only [Slot.setBooked, ha, if_true, List.mem_cons] at h
      rcases h with rfl | h
      · exact ⟨a, List.mem_cons_self _ _, ha, rfl, rfl⟩
      · exact ⟨x, List.mem_cons_of_mem _ h, rfl, rfl, rfl⟩
    · simp only [Slot.setBooked, ha, if_false, List.mem_cons] at h
      rcases h with rfl | h
      · exact ⟨x, List.mem_cons_self _ _, rfl, rfl, rfl⟩
      · obtain ⟨y, hy, h1⟩ := ih h
        exact ⟨y, List.mem_cons_of_mem _ hy, h1⟩

/-- A Slot from before a flag write is still stored, or it has the written id and is
stored with the written flag. -/
theorem Slot.mem_setBooked_of_mem {l : List Slot} {x : Slot} (id : Nat) (v : Bool)
    (h : x ∈ l) :
    x ∈ Slot.setBooked id v l ∨
      (x.id = id ∧ ({ x with isBooked := v } : Slot) ∈ Slot.setBooked id v l) := by
  induction l with
  | nil => simp at h
  | cons a rest ih =>
    by_cases ha : a.id = id
    · rcases List.mem_cons.mp h with rfl | h
      · right
        exact ⟨ha, by simp [Slot.setBooked, ha]⟩
      · left
        simp [Slot.setBooked, ha, h]
    · rcases List.mem_cons.mp h with rfl | h
      · left
        simp [Slot.setBooked, ha]
      · rcases ih h with h1 | ⟨h1, h2⟩
        · left; simp [Slot.setBooked, ha, h1]
        · right; exact ⟨h1, by simp [Slot.setBooked, ha, h2]⟩

/-- A lookup by pair that finds nothing: the pair is not stored. -/
theorem Slot.pair_not_mem_of_findOne {slots : List Slot} {st en : Int}
    (h : Slot.findOne slots st en = none) : (st, en) ∉ slots.map Slot.pair := by
  unfold Slot.findOne at h
  rw [List.find?_eq_none] at h
  intro hm
  obtain ⟨sl, hsl, hp⟩ := List.mem_map.mp hm
  have := h sl hsl
  simp only [Slot.pair, Prod.mk.injEq] at hp
  simp [hp.1, hp.2] at this

/-- Slot references stay pairwise distinct along request sequences. -/
theorem nodup_slotId_step (srv : Server) (s : Store) (r : Request)
    (h : (s.bookings.map (·.slotId)).Nodup) :
    ((Request.run srv s r).bookings.map (·.slotId)).Nodup := by
  cases r with
  | book now userId startAt endAt =>
    show ((bookSlot srv now s userId startAt endAt).2.bookings.map (·.slotId)).Nodup
    rcases bookSlot_store srv now s userId startAt endAt with h1 | ⟨st, en, _, h1⟩
    · rw [h1]; exact h
    · rw [h1]
      rcases claimSlot_store srv s userId st en with h2 | ⟨_, _, h2 | ⟨hn, h2⟩⟩ |
        ⟨sl, _, _, h2 | ⟨hn, h2⟩⟩
      · rw [h2]; exact h
      · rw [h2]; exact h
      · rw [h2]
        simp only [List.map_append, List.map_cons, List.map_nil]
        rw [List.nodup_append]
        refine ⟨h, by simp, ?_⟩
        intro a ha hb
        simp only [List.mem_singleton] at hb
        obtain ⟨b, hbm, rfl⟩ := List.mem_map.mp ha
        exact hn b hbm hb
      · rw [h2]; exact h
      · rw [h2]
        simp only [List.map_append, List.map_cons, List.map_nil]
        rw [List.nodup_append]
        refine ⟨h, by simp, ?_⟩
        intro a ha hb
        simp only [List.mem_singleton] at hb
        obtain ⟨b, hbm, rfl⟩ := List.mem_map.mp ha
        exact hn b hbm hb
  | patchStatus bookingId newStatus =>
    show ((setStatus s bookingId newStatus).2.bookings.map (·.slotId)).Nodup
    rcases setStatus_store s bookingId newStatus with h1 | ⟨st, b, _, _, h1, _⟩
    · rw [h1]; exact h
    · rw [h1, Booking.map_slotId_setStatus]; exact h

/-- A status write changes the Booking found by the id and keeps the others. -/
theorem Booking.of_mem_setStatus {l : List Booking} {id : Nat} {st : Status} {b x : Booking}
    (hf : l.find? (fun y => y.id == id) = some b)
    (hn : (l.map (·.slotId)).Nodup) (hx : x ∈ Booking.setStatus id st l) :
    x = { b with status := st } ∨ (x ∈ l ∧ x.slotId ≠ b.slotId) := by
  obtain ⟨pre, post, hl, _, _, hset⟩ := Booking.setStatus_of_find st hf
  rw [hset] at hx
  rw [hl] at hn ⊢
  simp only [List.map_append, List.map_cons, List.nodup_append, List.nodup_cons,
    List.mem_map, List.mem_cons, not_or, not_exists, not_and] at hn
  rcases List.mem_append.mp hx with hx | hx
  · right
    refine ⟨by simp [hx], ?_⟩
    intro he
    exact hn.2.2 (List.mem_map_of_mem (fun y : Booking => y.slotId) hx) (by simp [he])
  · rcases List.mem_cons.mp hx with rfl | hx
    · left; rfl
    · right
      refine ⟨by simp [hx], ?_⟩
      intro he
      exact hn.2.1.1 x hx he

/-- Without a revival, the flag of every Booking that is not cancelled survives a
request. -/
theorem activeBookingsFlagged_step (srv : Server) (s : Store) (r : Request)
    (hn : (s.bookings.map (·.slotId)).Nodup) (hk : ActiveBookingsFlagged s)
    (hr : r.revives s = false) : ActiveBookingsFlagged (Request.run srv s r) := by
  have hflag : ∀ (id : Nat) (b : Booking), b ∈ s.bookings → b.status ≠ .cancelled →
      ∃ sl ∈ Slot.setBooked id true s.slots, sl.id = b.slotId ∧ sl.isBooked = true := by
    intro id b hb hc
    obtain ⟨sl, hsl, h1, h2⟩ := hk b hb hc
    rcases Slot.mem_setBooked_of_mem id true hsl with h3 | ⟨_, h3⟩
    · exact ⟨sl, h3, h1, h2⟩
    · exact ⟨_, h3, h1, rfl⟩
  have happ : ∀ (x : Slot) (b : Booking), b ∈ s.bookings → b.status ≠ .cancelled →
      ∃ sl ∈ s.slots ++ [x], sl.id = b.slotId ∧ sl.isBooked = true := by
    intro x b hb hc
    obtain ⟨sl, hsl, h1, h2⟩ := hk b hb hc
    exact ⟨sl, List.mem_append_left _ hsl, h1, h2⟩
  cases r with
  | book now userId startAt endAt =>
    show ActiveBookingsFlagged (bookSlot srv now s userId startAt endAt).2
    rcases bookSlot_store srv now s userId startAt endAt with h1 | ⟨st, en, _, h1⟩
    · rw [h1]; exact hk
    · rw [h1]
      rcases claimSlot_store srv s userId st en with h2 | ⟨_, _, h2 | ⟨_, h2⟩⟩ |
        ⟨sl, hf, _, h2 | ⟨_, h2⟩⟩
      · rw [h2]; exact hk
      · rw [h2]
        intro b hb hc
        exact happ _ b hb hc
      · rw [h2]
        intro b hb hc
        rcases List.mem_append.mp hb with hb | hb
        · exact happ _ b hb hc
        · simp only [List.mem_singleton] at hb
          subst hb
          exact ⟨_, List.mem_append_right _ (List.mem_singleton_self _), rfl, rfl⟩
      · rw [h2]
        intro b hb hc
        exact hflag sl.id b hb hc
      · rw [h2]
        intro b hb hc
        rcases List.mem_append.mp hb with hb | hb
        · exact hflag sl.id b hb hc
        · simp only [List.mem_singleton] at hb
          subst hb
          have hmem : sl ∈ s.slots := List.mem_of_find?_eq_some hf
          rcases Slot.mem_setBooked_of_mem sl.id true hmem with h3 | ⟨_, h3⟩
          · have hany : s.slots.any (fun x => x.id == sl.id) = true := by
              rw [List.any_eq_true]; exact ⟨sl, hmem, by simp⟩
            obtain ⟨p, z, q, hl, hp, hz⟩ := Slot.split_of_any hany
            refine ⟨{ z with isBooked := true }, ?_, hz, rfl⟩
            rw [hl, Slot.setBooked_of_split true hp hz]
            simp
          · exact ⟨_, h3, rfl, rfl⟩
  | patchStatus bookingId newStatus =>
    show ActiveBookingsFlagged (setStatus s bookingId newStatus).2
    rcases setStatus_store s bookingId newStatus with h1 | ⟨st, b, hst, hf, hb, h1⟩
    · rw [h1]; exact hk
    · have hrev : ¬ (st ≠ .cancelled ∧ b.status = .cancelled) := by
        simp only [Request.revives, hst, hf] at hr
        simpa using hr
      intro x hx hc
      rw [hb] at hx
      rcases h1 with ⟨hcan, hs⟩ | ⟨hcan, hs⟩
      · rw [hs]
        rcases Booking.of_mem_setStatus hf hn hx with rfl | ⟨hxm, hne⟩
        · exact absurd hcan hc
        · obtain ⟨sl, hsl, h2, h3⟩ := hk x hxm hc
          rcases Slot.mem_setBooked_of_mem b.slotId false hsl with h4 | ⟨h4, _⟩
          · exact ⟨sl, h4, h2, h3⟩
          · exact absurd (h2.symm.trans h4) hne
      · rw [hs]
        rcases Booking.of_mem_setStatus hf hn hx with rfl | ⟨hxm, _⟩
        · have hbm : b ∈ s.bookings := List.mem_of_find?_eq_some hf
          have hbc : b.status ≠ .cancelled := fun h => hrev ⟨hcan, h⟩
          exact hk b hbm hbc
        · exact hk x hxm hc

/-! ## Facts about the booking listings -/

/-- Formatting succeeds exactly with the entry of each document, in order. -/
theorem formatBookings_eq_some {slots : List Slot} {found : List Booking}
    {views : List BookingView} (h : formatBookings slots found = some views) :
    List.Forall₂ (fun b v => b.view slots = some v) found views := by
  unfold formatBookings at h
  split at h
  · rename_i hall
    simp only [Option.some.injEq] at h
    subst h
    induction found with
    | nil => exact List.Forall₂.nil
    | cons b rest ih =>
      simp only [List.all_cons, Bool.and_eq_true] at hall
      obtain ⟨v, hv⟩ := Option.isSome_iff_exists.mp hall.1
      rw [List.filterMap_cons_some hv]
      exact List.Forall₂.cons hv (ih hall.2)
  · simp at h

/-- Formatting succeeds when every document references a stored Slot. -/
theorem formatBookings_of_refs {slots : List Slot} {found : List Booking}
    (h : ∀ b ∈ found, ∃ sl ∈ slots, sl.id = b.slotId) :
    ∃ views, formatBookings slots found = some views := by
  have hall : found.all (fun b => (b.view slots).isSome) = true := by
    rw [List.all_eq_true]
    intro b hb
    obtain ⟨sl, hsl, hid⟩ := h b hb
    simp only [Booking.view, Booking.populateSlot, Option.isSome_map', List.find?_isSome]
    exact ⟨sl, hsl, by simp [hid]⟩
  exact ⟨_, by unfold formatBookings; rw [if_pos hall]⟩

/-- The formatted entries carry the ids and statuses of the documents, in order. -/
theorem map_id_of_forall₂_view {slots : List Slot} {found : List Booking}
    {views : List BookingView}
    (h : List.Forall₂ (fun b v => b.view slots = some v) found views) :
    views.map (fun v => (v.id, v.status)) = found.map (fun b => (b.id, b.status)) ∧
    views.length = found.length := by
  induction h with
  | nil => exact ⟨rfl, rfl⟩
  | cons hv _ ih =>
    rename_i b v rest vs
    simp only [Booking.view, Option.map_eq_some'] at hv
    obtain ⟨sl, _, rfl⟩ := hv
    simp [ih.1, ih.2]

/-- The number of pages `(T + L - 1) / L` is the ceiling of `T / L`. -/
theorem pages_le_iff (T L n : Nat) (hL : 1 ≤ L) : (T + L - 1) / L ≤ n ↔ T ≤ n * L := by
  rw [← Nat.lt_succ_iff, Nat.div_lt_iff_lt_mul (by omega), Nat.succ_mul]
  omega

/-- Along request sequences handled one after the other no pair of instants is stored
twice: a Slot is created only after the lookup by its pair found none. -/
theorem reachable_nodup_pair {srv : Server} {s : Store} (h : Reachable srv s) :
    (s.slots.map Slot.pair).Nodup := by
  refine Reachable.induct (P := fun s => (s.slots.map Slot.pair).Nodup) List.nodup_nil ?_ h
  intro s r hs
  cases r with
  | book now userId startAt endAt =>
    show ((bookSlot srv now s userId startAt endAt).2.slots.map Slot.pair).Nodup
    rcases bookSlot_store srv now s userId startAt endAt with h1 | ⟨st, en, _, h1⟩
    · rw [h1]; exact hs
    · rw [h1]
      rcases claimSlot_store srv s userId st en with h2 | ⟨hf, _, h2 | ⟨_, h2⟩⟩ |
        ⟨sl, _, _, h2 | ⟨_, h2⟩⟩
      · rw [h2]; exact hs
      · rw [h2]
        simp only [List.map_append, List.map_cons, List.map_nil]
        rw [List.nodup_append]
        refine ⟨hs, by simp, ?_⟩
        intro a ha hb
        simp only [List.mem_singleton] at hb
        subst hb
        exact Slot.pair_not_mem_of_findOne hf ha
      · rw [h2]
        simp only [List.map_append, List.map_cons, List.map_nil]
        rw [List.nodup_append]
        refine ⟨hs, by simp, ?_⟩
        intro a ha hb
        simp only [List.mem_singleton] at hb
        subst hb
        exact Slot.pair_not_mem_of_findOne hf ha
      · rw [h2, Slot.map_pair_setBooked]; exact hs
      · rw [h2, Slot.map_pair_setBooked]; exact hs
  | patchStatus bookingId newStatus =>
    show ((setStatus s bookingId newStatus).2.slots.map Slot.pair).Nodup
    rcases setStatus_store s bookingId newStatus with h1 | ⟨st, b, _, _, _, h1 | h1⟩
    · rw [h1]; exact hs
    · rw [h1.2, Slot.map_pair_setBooked]; exact hs
    · rw [h1.2]; exact hs

/-- Along request sequences every stored Slot lasts 1 800 000 ms: a Slot is created
with the instants that passed the validation of `bookSlot`. -/
theorem reachable_slot_duration {srv : Server} {s : Store} (h : Reachable srv s) :
    ∀ sl ∈ s.slots, sl.endAt - sl.startAt = 1800000 := by
  refine Reachable.induct (P := fun s => ∀ sl ∈ s.slots, sl.endAt - sl.startAt = 1800000)
    (by intro sl hsl; simp [Store.empty] at hsl) ?_ h
  intro s r hs
  cases r with
  | book now userId startAt endAt =>
    show ∀ sl ∈ (bookSlot srv now s userId startAt endAt).2.slots, _
    rcases bookSlot_store srv now s userId startAt endAt with h1 | ⟨st, en, hv, h1⟩
    · rw [h1]; exact hs
    · rw [h1]
      have hdur := (validateBooking_accepted hv).2.2.2.2.2
      have happ : ∀ sl ∈ s.slots ++ [(⟨freshId (s.slots.map (·.id)), st, en, true⟩ : Slot)],
          sl.endAt - sl.startAt = 1800000 := by
        intro sl hsl
        rcases List.mem_append.mp hsl with hsl | hsl
        · exact hs sl hsl
        · simp only [List.mem_singleton] at hsl
          subst hsl
          show en - st = 1800000
          omega
      have hflag : ∀ id, ∀ sl ∈ Slot.setBooked id true s.slots,
          sl.endAt - sl.startAt = 1800000 := by
        intro id sl hsl
        obtain ⟨y, hy, _, h2, h3⟩ := Slot.of_mem_setBooked hsl
        rw [← h2, ← h3]
        exact hs y hy
      rcases claimSlot_store srv s userId st en with h2 | ⟨_, _, h2 | ⟨_, h2⟩⟩ |
        ⟨sl, _, _, h2 | ⟨_, h2⟩⟩
      · rw [h2]; exact hs
      · rw [h2]; exact happ
      · rw [h2]; exact happ
      · rw [h2]; exact hflag sl.id
      · rw [h2]; exact hflag sl.id
  | patchStatus bookingId newStatus =>
    show ∀ sl ∈ (setStatus s bookingId newStatus).2.slots, _
    rcases setStatus_store s bookingId newStatus with h1 | ⟨st, b, _, _, _, h1 | h1⟩
    · rw [h1]; exact hs
    · rw [h1.2]
      intro sl hsl
      obtain ⟨y, hy, _, h2, h3⟩ := Slot.of_mem_setBooked hsl
      rw [← h2, ← h3]
      exact hs y hy
    · rw [h1.2]; exact hs

/-! ## C1 : a request for a slot that is already booked -/

/-- How `racedStore` arises: the race of C2 followed by a cancellation. -/
theorem racedStore_arises :
    (setStatus (runSchedule utcServer Store.empty
        [Call.start 7 nineAm nineThirty, Call.start 8 nineAm nineThirty]
        [0, 0, 1, 1, 0, 1, 0, 1]).1 1 (some "cancelled")).2 = racedStore := by
  decide

/-- C1, failing input.  Two handlers raced for 09:00-09:30 (both answered 201, two
Slots for the pair) and the booking on the older Slot was cancelled: the database
holds a Slot for 09:00-09:30 with `isBooked = true`, and a valid request for 09:00-09:30
is answered 500, not 409, and changes the database.  The lookup of line 71 returns the
older, free Slot; lines 88-89 flag it; the insert of line 98 is refused by the unique
index on `slotId` and nothing resets the flag. -/
theorem bookSlot_booked_pair_server_error :
    (setStatus (runSchedule utcServer Store.empty
        [Call.start 7 nineAm nineThirty, Call.start 8 nineAm nineThirty]
        [0, 0, 1, 1, 0, 1, 0, 1]).1 1 (some "cancelled")).2 = racedStore ∧
    (⟨2, nineAm, nineThirty, true⟩ : Slot) ∈ racedStore.slots ∧
    validateBooking 0 sampleNow (.instant nineAm) (.instant nineThirty) =
      .accepted nineAm nineThirty ∧
    bookSlot utcServer sampleNow racedStore 9 (.instant nineAm) (.instant nineThirty) =
      (.serverError,
        ⟨[⟨1, nineAm, nineThirty, true⟩, ⟨2, nineAm, nineThirty, true⟩],
          [⟨1, 7, 1, .cancelled⟩, ⟨2, 8, 2, .confirmed⟩]⟩) ∧
    (bookSlot utcServer sampleNow racedStore 9 (.instant nineAm)
      (.instant nineThirty)).1.code = 500 ∧
    (bookSlot utcServer sampleNow racedStore 9 (.instant nineAm)
      (.instant nineThirty)).2 ≠ racedStore := by
  decide

/-- The lookup by pair returns the only Slot stored with that pair. -/
theorem Slot.findOne_of_unique {slots : List Slot} {st en : Int} {sl : Slot}
    (hm : sl ∈ slots) (hs : sl.startAt = st) (he : sl.endAt = en)
    (hu : ∀ sl2 ∈ slots, sl2.startAt = st → sl2.endAt = en → sl2 = sl) :
    Slot.findOne slots st en = some sl := by
  unfold Slot.findOne
  cases hf : slots.find? (fun x => x.startAt == st && x.endAt == en) with
  | none =>
    have := List.find?_eq_none.mp hf sl hm
    simp [hs, he] at this
  | some x =>
    have hx := List.find?_some hf
    have hxm := List.mem_of_find?_eq_some hf
    simp only [Bool.and_eq_true, beq_iff_eq] at hx
    rw [hu x hxm hx.1 hx.2]

/-- Where a request for a booked pair is answered 409.  When the Slot that the lookup
by `(startAt, endAt)` returns (the first stored one with that pair) has
`isBooked = true`, a request for that pair that passes validation is answered 409 and
the database, Slots and Bookings alike, is left as it was; no Booking is created.  This
is the case for every booked Slot with that pair in a database that stores one Slot per
pair. -/
theorem bookSlot_conflict_of_found_booked (srv : Server) (now : Int) (s : Store)
    (userId : Nat) (startAt endAt : DateInput) (st en : Int) (sl : Slot)
    (hv : validateBooking srv.tz now startAt endAt = .accepted st en)
    (hb : sl.isBooked = true) :
    (Slot.findOne s.slots st en = some sl →
      bookSlot srv now s userId startAt endAt = (.conflict, s) ∧
        (bookSlot srv now s userId startAt endAt).1.code = 409) ∧
    (sl ∈ s.slots → sl.startAt = st → sl.endAt = en →
      (∀ sl2 ∈ s.slots, sl2.startAt = st → sl2.endAt = en → sl2 = sl) →
      bookSlot srv now s userId startAt endAt = (.conflict, s) ∧
        (bookSlot srv now s userId startAt endAt).1.code = 409) := by
  have key : Slot.findOne s.slots st en = some sl →
      bookSlot srv now s userId startAt endAt = (.conflict, s) ∧
        (bookSlot srv now s userId startAt endAt).1.code = 409 := by
    intro hf
    have h : bookSlot srv now s userId startAt endAt = (.conflict, s) := by
      rw [bookSlot_of_accepted hv]
      simp only [claimSlot, hf, hb]
      split <;> simp
    exact ⟨h, by rw [h]; rfl⟩
  exact ⟨key, fun hm hs he hu => key (Slot.findOne_of_unique hm hs he hu)⟩

/-- User 8 asks for the slot user 7 holds. -/
theorem bookSlot_conflict_of_found_booked_witness :
    validateBooking 0 sampleNow (.instant nineAm) (.instant nineThirty) =
      .accepted nineAm nineThirty ∧
    Slot.findOne bookedStore.slots nineAm nineThirty = some ⟨1, nineAm, nineThirty, true⟩ ∧
    bookSlot utcServer sampleNow bookedStore 8 (.instant nineAm) (.instant nineThirty) =
      (.conflict, bookedStore) :=
  ⟨by decide, by decide,
    ((bookSlot_conflict_of_found_booked utcServer sampleNow bookedStore 8 (.instant nineAm)
      (.instant nineThirty) nineAm nineThirty ⟨1, nineAm, nineThirty, true⟩
      (by decide) rfl).1 (by decide)).1⟩

/-- On every database that requests handled one after the other produce, a request for
a stored pair whose Slot has `isBooked = true` is answered 409 and the database is left
as it was. -/
theorem bookSlot_conflict_of_reachable (srv : Server) (now : Int) (s : Store)
    (userId : Nat) (startAt endAt : DateInput) (st en : Int) (sl : Slot)
    (hr : Reachable srv s)
    (hv : validateBooking srv.tz now startAt endAt = .accepted st en)
    (hm : sl ∈ s.slots) (hs : sl.startAt = st) (he : sl.endAt = en)
    (hb : sl.isBooked = true) :
    bookSlot srv now s userId startAt endAt = (.conflict, s) := by
  have hn := reachable_nodup_pair hr
  have hu : ∀ sl2 ∈ s.slots, sl2.startAt = st → sl2.endAt = en → sl2 = sl := by
    intro sl2 h2 hs2 he2
    exact List.inj_on_of_nodup_map hn h2 hm (by simp [Slot.pair, hs, he, hs2, he2])
  exact ((bookSlot_conflict_of_found_booked srv now s userId startAt endAt st en sl hv
    hb).2 hm hs he hu).1

/-! ## C2 : two handlers racing for one pair -/

/-- C2, failing schedule.  Two handlers for the same valid pair start on the empty
database.  When both finish their two lookups before either writes, both insert a Slot
(the index on the pair is not unique), both insert a Booking (the two `slotId`s differ)
and both answer 201: two successes, two Slots for the pair, two Bookings. -/
theorem concurrent_bookSlot_both_created (srv : Server) (u1 u2 : Nat) (st en : Int)
    (h : st < en) :
    runSchedule srv Store.empty [Call.start u1 st en, Call.start u2 st en]
        [0, 0, 1, 1, 0, 1, 0, 1] =
      (⟨[⟨1, st, en, true⟩, ⟨2, st, en, true⟩],
        [⟨1, u1, 1, .confirmed⟩, ⟨2, u2, 2, .confirmed⟩]⟩,
       [⟨u1, st, en, .answered (.created ⟨1, u1, 1, .confirmed⟩)⟩,
        ⟨u2, st, en, .answered (.created ⟨2, u2, 2, .confirmed⟩)⟩]) := by
  have h1 : ¬ en ≤ st := by omega
  simp [runSchedule, Call.step, Call.start, Store.empty, Slot.findOne, Slot.create,
    Slot.saveRefused, saveBooking, Booking.create, freshId, h1]

/-- Instance of C2: users 7 and 8 race for 09:00-09:30; two answers are 201 and two Slots
are stored for the pair. -/
theorem concurrent_bookSlot_both_created_witness :
    nineAm < nineThirty ∧
    ((answers (runSchedule utcServer Store.empty
        [Call.start 7 nineAm nineThirty, Call.start 8 nineAm nineThirty]
        [0, 0, 1, 1, 0, 1, 0, 1]).2).filter Response.isCreated).length = 2 ∧
    (slotsAt (runSchedule utcServer Store.empty
        [Call.start 7 nineAm nineThirty, Call.start 8 nineAm nineThirty]
        [0, 0, 1, 1, 0, 1, 0, 1]).1 nineAm nineThirty).length = 2 := by
  have h := concurrent_bookSlot_both_created utcServer 7 8 nineAm nineThirty (by decide)
  refine ⟨by decide, ?_, ?_⟩
  · rw [h]; decide
  · rw [h]; decide

/-! ## C3, C4, C5 : booking again after a cancellation

The three results below come from one defect.  A cancelled Booking stays in its
collection and keeps its `slotId`; the handler of `POST /book` flags the freed Slot
first and inserts the new Booking afterwards; the unique index on `slotId` refuses that
insert and the `catch` block answers 500 without resetting the flag. -/

/-- C3, failing scenario.  From the empty database, book a valid range (201), cancel the
booking, then book the same range again: the third answer is never 201.  It is 409 when
the filter of line 59 matches the cancelled Booking, and otherwise 500, with the Slot
left flagged `isBooked = true` and no new Booking. -/
theorem rebook_after_cancel_not_created (srv : Server) (now now2 : Int) (u1 u2 : Nat)
    (startAt endAt : DateInput) (st en : Int)
    (hv : validateBooking srv.tz now startAt endAt = .accepted st en)
    (hv2 : validateBooking srv.tz now2 startAt endAt = .accepted st en) :
    bookSlot srv now Store.empty u1 startAt endAt =
        (.created ⟨1, u1, 1, .confirmed⟩,
          ⟨[⟨1, st, en, true⟩], [⟨1, u1, 1, .confirmed⟩]⟩) ∧
    setStatus ⟨[⟨1, st, en, true⟩], [⟨1, u1, 1, .confirmed⟩]⟩ 1 (some "cancelled") =
        (.updated ⟨1, u1, 1, .cancelled⟩,
          ⟨[⟨1, st, en, false⟩], [⟨1, u1, 1, .cancelled⟩]⟩) ∧
    (bookSlot srv now2 ⟨[⟨1, st, en, false⟩], [⟨1, u1, 1, .cancelled⟩]⟩ u2 startAt endAt =
        (.conflict, ⟨[⟨1, st, en, false⟩], [⟨1, u1, 1, .cancelled⟩]⟩) ∨
     bookSlot srv now2 ⟨[⟨1, st, en, false⟩], [⟨1, u1, 1, .cancelled⟩]⟩ u2 startAt endAt =
        (.serverError, ⟨[⟨1, st, en, true⟩], [⟨1, u1, 1, .cancelled⟩]⟩)) ∧
    (bookSlot srv now2 ⟨[⟨1, st, en, false⟩], [⟨1, u1, 1, .cancelled⟩]⟩ u2 startAt
        endAt).1.code ≠ 201 := by
  have hd := (validateBooking_accepted hv).2.2.2.2.2
  have h1 : ¬ en ≤ st := by omega
  have key :
      bookSlot srv now2 ⟨[⟨1, st, en, false⟩], [⟨1, u1, 1, .cancelled⟩]⟩ u2 startAt endAt =
          (.conflict, ⟨[⟨1, st, en, false⟩], [⟨1, u1, 1, .cancelled⟩]⟩) ∨
        bookSlot srv now2 ⟨[⟨1, st, en, false⟩], [⟨1, u1, 1, .cancelled⟩]⟩ u2 startAt endAt =
          (.serverError, ⟨[⟨1, st, en, true⟩], [⟨1, u1, 1, .cancelled⟩]⟩) := by
    unfold bookSlot
    rw [hv2]
    cases hq : srv.slotPathFilter [⟨1, st, en, false⟩] ⟨1, u1, 1, .cancelled⟩ st en with
    | true => left; simp [claimSlot, hq]
    | false =>
      right
      simp [claimSlot, hq, Slot.findOne, Slot.saveBooked, Slot.saveRefused, Slot.setBooked,
        saveBooking, Booking.create, h1]
  refine ⟨?_, ?_, key, ?_⟩
  · unfold bookSlot
    rw [hv]
    simp [claimSlot, Store.empty, Slot.findOne, Slot.create, Slot.saveRefused, saveBooking,
      Booking.create, freshId, h1]
  · simp [setStatus, Status.ofString?, Booking.setStatus, Slot.setBooked]
  · rcases key with h | h <;> rw [h] <;> simp [Response.code]

/-- Instance of C3 on a server in UTC. -/
theorem rebook_after_cancel_not_created_witness :
    validateBooking 0 sampleNow (.instant nineAm) (.instant nineThirty) =
      .accepted nineAm nineThirty ∧
    (bookSlot utcServer sampleNow cancelledStore 8 (.instant nineAm)
      (.instant nineThirty)).1.code ≠ 201 :=
  ⟨by decide,
    (rebook_after_cancel_not_created utcServer sampleNow sampleNow 7 8 (.instant nineAm)
      (.instant nineThirty) nineAm nineThirty (by decide) (by decide)).2.2.2⟩

/-- C4, failing sequence.  After booking 09:00-09:30, cancelling that booking and
requesting 09:00-09:30 again, the database holds a Slot with `isBooked = true` whose only
Booking is cancelled: the number of its bookings that are not cancelled is 0, not 1. -/
theorem reachable_booked_slot_without_booking :
    Reachable utcServer ⟨[⟨1, nineAm, nineThirty, true⟩], [⟨1, 7, 1, .cancelled⟩]⟩ ∧
    ¬ BookedSlotsHeld ⟨[⟨1, nineAm, nineThirty, true⟩], [⟨1, 7, 1, .cancelled⟩]⟩ ∧
    (activeBookings ⟨[⟨1, nineAm, nineThirty, true⟩], [⟨1, 7, 1, .cancelled⟩]⟩ 1).length
      = 0 :=
  ⟨⟨bookCancelBook, by decide⟩, by decide, by decide⟩

/-- C5, failing request.  On the database left by a cancelled booking of 09:00-09:30, a
valid request for 09:00-09:30 is answered 500 and the database is not the one before the
call: the Slot now has `isBooked = true` and there is no booking of that call. -/
theorem bookSlot_serverError_keeps_flag :
    bookSlot utcServer sampleNow cancelledStore 8 (.instant nineAm) (.instant nineThirty) =
      (.serverError, ⟨[⟨1, nineAm, nineThirty, true⟩], [⟨1, 7, 1, .cancelled⟩]⟩) ∧
    (bookSlot utcServer sampleNow cancelledStore 8 (.instant nineAm)
      (.instant nineThirty)).2 ≠ cancelledStore ∧
    (bookSlot utcServer sampleNow cancelledStore 8 (.instant nineAm)
      (.instant nineThirty)).1.code = 500 := by
  decide

/-! ## C6 - C10 : the validation block of `POST /book` -/

/-- C6.  For a request whose instants parse and whose start is in the future, the answer
is the 400 "Slots must be between 9:00 AM and 5:00 PM" exactly when the local hour of the
start is below 9 or the local hour of the end is above 17, and then the database is
untouched; 08:30-09:00 gets that answer and 16:30-17:00 does not (it passes the whole
validation when it is in the future). -/
theorem business_hours_check (srv : Server) (now : Int) (s : Store) (userId : Nat)
    (st en d : Int) (h : now < st) :
    ((bookSlot srv now s userId (.instant st) (.instant en)).1 =
        .badRequest .outsideBusinessHours ↔
      (getHours srv.tz st < 9 ∨ getHours srv.tz en > 17)) ∧
    ((getHours srv.tz st < 9 ∨ getHours srv.tz en > 17) →
      bookSlot srv now s userId (.instant st) (.instant en) =
        (.badRequest .outsideBusinessHours, s)) ∧
    (now < atLocal srv.tz d 8 30 →
      bookSlot srv now s userId (.instant (atLocal srv.tz d 8 30))
          (.instant (atLocal srv.tz d 9 0)) =
        (.badRequest .outsideBusinessHours, s)) ∧
    (bookSlot srv now s userId (.instant (atLocal srv.tz d 16 30))
        (.instant (atLocal srv.tz d 17 0))).1 ≠ .badRequest .outsideBusinessHours ∧
    (now < atLocal srv.tz d 16 30 →
      validateBooking srv.tz now (.instant (atLocal srv.tz d 16 30))
          (.instant (atLocal srv.tz d 17 0)) =
        .accepted (atLocal srv.tz d 16 30) (atLocal srv.tz d 17 0)) ∧
    (Response.badRequest .outsideBusinessHours).code = 400 ∧
    ValidationError.outsideBusinessHours.message =
      "Slots must be between 9:00 AM and 5:00 PM" := by
  have a830 : getHours srv.tz (atLocal srv.tz d 8 30) = 8 :=
    getHours_atLocal _ _ _ _ (by norm_num) (by norm_num) (by norm_num) (by norm_num)
  have a1630 : getHours srv.tz (atLocal srv.tz d 16 30) = 16 :=
    getHours_atLocal _ _ _ _ (by norm_num) (by norm_num) (by norm_num) (by norm_num)
  have a17 : getHours srv.tz (atLocal srv.tz d 17 0) = 17 :=
    getHours_atLocal _ _ _ _ (by norm_num) (by norm_num) (by norm_num) (by norm_num)
  have hdur : atLocal srv.tz d 17 0 - atLocal srv.tz d 16 30 = 30 * (1000 * 60) := by
    unfold atLocal; omega
  have hok : ¬ (getHours srv.tz (atLocal srv.tz d 16 30) < 9 ∨
      getHours srv.tz (atLocal srv.tz d 17 0) > 17) := by
    rw [a1630, a17]; omega
  refine ⟨?_, ?_, ?_, ?_, ?_, rfl, rfl⟩
  · by_cases hh : getHours srv.tz st < 9 ∨ getHours srv.tz en > 17
    · rw [bookSlot_of_rejected (validateBooking_hours h hh)]
      simp [hh]
    · by_cases hd : en - st = 30 * (1000 * 60)
      · rw [bookSlot_of_accepted (validateBooking_pass h hh hd)]
        simp [hh, claimSlot_ne_badRequest]
      · rw [bookSlot_of_rejected (validateBooking_duration h hh hd)]
        simp [hh]
  · intro hh
    exact bookSlot_of_rejected (validateBooking_hours h hh) s userId
  · intro hf
    exact bookSlot_of_rejected (validateBooking_hours hf (Or.inl (by rw [a830]; norm_num)))
      s userId
  · by_cases hp : atLocal srv.tz d 16 30 ≤ now
    · rw [bookSlot_of_rejected (validateBooking_past hp)]
      simp
    · rw [bookSlot_of_accepted (validateBooking_pass (not_le.mp hp) hok hdur)]
      exact claimSlot_ne_badRequest _ _ _ _ _ _
  · intro hf
    exact validateBooking_pass hf hok hdur

/-- Instance of C6 on 2025-01-06 in UTC. -/
theorem business_hours_check_witness :
    sampleNow < atLocal 0 sampleDay 8 30 ∧
    bookSlot utcServer sampleNow bookedStore 7 (.instant (atLocal 0 sampleDay 8 30))
        (.instant (atLocal 0 sampleDay 9 0)) =
      (.badRequest .outsideBusinessHours, bookedStore) ∧
    validateBooking 0 sampleNow (.instant (atLocal 0 sampleDay 16 30))
        (.instant (atLocal 0 sampleDay 17 0)) =
      .accepted (atLocal 0 sampleDay 16 30) (atLocal 0 sampleDay 17 0) :=
  ⟨by decide,
    (business_hours_check utcServer sampleNow bookedStore 7 (atLocal 0 sampleDay 8 30)
      (atLocal 0 sampleDay 9 0) sampleDay (by decide)).2.2.1 (by decide),
    (business_hours_check utcServer sampleNow bookedStore 7 (atLocal 0 sampleDay 8 30)
      (atLocal 0 sampleDay 9 0) sampleDay (by decide)).2.2.2.2.1 (by decide)⟩

/-- C7, failing request.  A future request for 16:45-17:15 passes the validation block
(start hour 16, end hour 17, 30 minutes) although it ends a quarter of an hour after
5:00 PM: it is not answered 400, and on the empty database it is booked with 201.  The
check on line 44 compares the hour of the end only, so an end between 17:01 and 17:59
is let through. -/
theorem quarter_past_five_accepted (srv : Server) (now : Int) (s : Store) (userId : Nat)
    (d : Int) (h : now < atLocal srv.tz d 16 45) :
    validateBooking srv.tz now (.instant (atLocal srv.tz d 16 45))
        (.instant (atLocal srv.tz d 17 15)) =
      .accepted (atLocal srv.tz d 16 45) (atLocal srv.tz d 17 15) ∧
    (bookSlot srv now s userId (.instant (atLocal srv.tz d 16 45))
        (.instant (atLocal srv.tz d 17 15))).1.code ≠ 400 ∧
    bookSlot srv now Store.empty userId (.instant (atLocal srv.tz d 16 45))
        (.instant (atLocal srv.tz d 17 15)) =
      (.created ⟨1, userId, 1, .confirmed⟩,
        ⟨[⟨1, atLocal srv.tz d 16 45, atLocal srv.tz d 17 15, true⟩],
          [⟨1, userId, 1, .confirmed⟩]⟩) ∧
    timeOfDay srv.tz (atLocal srv.tz d 17 15) > 17 * 3600000 := by
  have a1645 : getHours srv.tz (atLocal srv.tz d 16 45) = 16 :=
    getHours_atLocal _ _ _ _ (by norm_num) (by norm_num) (by norm_num) (by norm_num)
  have a1715 : getHours srv.tz (atLocal srv.tz d 17 15) = 17 :=
    getHours_atLocal _ _ _ _ (by norm_num) (by norm_num) (by norm_num) (by norm_num)
  have hdur : atLocal srv.tz d 17 15 - atLocal srv.tz d 16 45 = 30 * (1000 * 60) := by
    unfold atLocal; omega
  have hok : ¬ (getHours srv.tz (atLocal srv.tz d 16 45) < 9 ∨
      getHours srv.tz (atLocal srv.tz d 17 15) > 17) := by
    rw [a1645, a1715]; omega
  have hv := validateBooking_pass h hok hdur
  have h1 : ¬ atLocal srv.tz d 17 15 ≤ atLocal srv.tz d 16 45 := by omega
  refine ⟨hv, ?_, ?_, ?_⟩
  · rw [bookSlot_of_accepted hv]
    exact claimSlot_code_ne_400 _ _ _ _ _
  · rw [bookSlot_of_accepted hv]
    simp [claimSlot, Store.empty, Slot.findOne, Slot.create, Slot.saveRefused, saveBooking,
      Booking.create, freshId, h1]
  · unfold timeOfDay atLocal
    omega

/-- Instance of C7: 16:45-17:15 on 2025-01-06 in UTC is booked. -/
theorem quarter_past_five_accepted_witness :
    sampleNow < atLocal 0 sampleDay 16 45 ∧
    (bookSlot utcServer sampleNow Store.empty 7 (.instant (atLocal 0 sampleDay 16 45))
        (.instant (atLocal 0 sampleDay 17 15))).1 = .created ⟨1, 7, 1, .confirmed⟩ :=
  ⟨by decide,
    congrArg Prod.fst (quarter_past_five_accepted utcServer sampleNow Store.empty 7 sampleDay
      (by decide)).2.2.1⟩

/-- C8.  For a request that passes the parse, future and business-hours checks, the
validation block accepts it exactly when `endAt - startAt` is 1 800 000 ms; any other
difference (29 or 31 minutes, 30 minutes and 1 ms, zero, negative) is answered 400
"Slot duration must be exactly 30 minutes" and the database is untouched. -/
theorem exact_duration_check (srv : Server) (now : Int) (s : Store) (userId : Nat)
    (st en : Int) (hf : now < st)
    (hh : ¬ (getHours srv.tz st < 9 ∨ getHours srv.tz en > 17)) :
    (validateBooking srv.tz now (.instant st) (.instant en) = .accepted st en ↔
      en - st = 1800000) ∧
    (en - st ≠ 1800000 →
      bookSlot srv now s userId (.instant st) (.instant en) =
        (.badRequest .wrongDuration, s)) ∧
    ((en - st = 29 * 60000 ∨ en - st = 31 * 60000 ∨ en - st = 1800000 + 1 ∨ en - st ≤ 0) →
      bookSlot srv now s userId (.instant st) (.instant en) =
        (.badRequest .wrongDuration, s)) ∧
    ((bookSlot srv now s userId (.instant st) (.instant en)).1.code = 400 ↔
      en - st ≠ 1800000) ∧
    (Response.badRequest .wrongDuration).code = 400 ∧
    ValidationError.wrongDuration.message = "Slot duration must be exactly 30 minutes" := by
  have hbad : en - st ≠ 1800000 →
      bookSlot srv now s userId (.instant st) (.instant en) =
        (.badRequest .wrongDuration, s) := fun hd =>
    bookSlot_of_rejected (validateBooking_duration hf hh (by omega)) s userId
  refine ⟨?_, hbad, ?_, ?_, rfl, rfl⟩
  · constructor
    · intro hv
      have := (validateBooking_accepted hv).2.2.2.2.2
      omega
    · intro hd
      exact validateBooking_pass hf hh (by omega)
  · intro hd
    exact hbad (by omega)
  · by_cases hd : en - st = 1800000
    · rw [bookSlot_of_accepted (validateBooking_pass hf hh (by omega))]
      simp [hd, claimSlot_code_ne_400]
    · rw [hbad hd]
      simp [hd, Response.code]

/-- Instance of C8: 09:00-09:29 is answered with the duration error. -/
theorem exact_duration_check_witness :
    sampleNow < nineAm ∧
    ¬ (getHours 0 nineAm < 9 ∨ getHours 0 (nineAm + 29 * 60000) > 17) ∧
    bookSlot utcServer sampleNow bookedStore 7 (.instant nineAm)
        (.instant (nineAm + 29 * 60000)) =
      (.badRequest .wrongDuration, bookedStore) :=
  ⟨by decide, by decide,
    (exact_duration_check utcServer sampleNow bookedStore 7 nineAm (nineAm + 29 * 60000)
      (by decide) (by decide)).2.1 (by decide)⟩

/-- C9.  A request whose instants parse and whose start is not after the request time,
equality included, is answered 400 "Cannot book slots in the past" and the database is
returned as it was; a start after the request time never gets that answer. -/
theorem future_start_check (srv : Server) (now : Int) (s : Store) (userId : Nat)
    (st en : Int) :
    (st ≤ now →
      bookSlot srv now s userId (.instant st) (.instant en) =
        (.badRequest .pastSlot, s)) ∧
    bookSlot srv st s userId (.instant st) (.instant en) = (.badRequest .pastSlot, s) ∧
    (now < st →
      (bookSlot srv now s userId (.instant st) (.instant en)).1 ≠ .badRequest .pastSlot) ∧
    (Response.badRequest .pastSlot).code = 400 ∧
    ValidationError.pastSlot.message = "Cannot book slots in the past" := by
  refine ⟨fun h => bookSlot_of_rejected (validateBooking_past h) s userId,
    bookSlot_of_rejected (validateBooking_past (le_refl st)) s userId, ?_, rfl, rfl⟩
  intro h
  by_cases hh : getHours srv.tz st < 9 ∨ getHours srv.tz en > 17
  · rw [bookSlot_of_rejected (validateBooking_hours h hh)]
    simp
  · by_cases hd : en - st = 30 * (1000 * 60)
    · rw [bookSlot_of_accepted (validateBooking_pass h hh hd)]
      exact claimSlot_ne_badRequest _ _ _ _ _ _
    · rw [bookSlot_of_rejected (validateBooking_duration h hh hd)]
      simp

/-- Instance of C9: a start equal to the request time is in the past. -/
theorem future_start_check_witness :
    nineAm ≤ nineAm ∧
    bookSlot utcServer nineAm bookedStore 7 (.instant nineAm) (.instant nineThirty) =
      (.badRequest .pastSlot, bookedStore) ∧
    sampleNow < nineAm ∧
    (bookSlot utcServer sampleNow bookedStore 7 (.instant nineAm)
      (.instant nineThirty)).1 ≠ .badRequest .pastSlot :=
  ⟨le_refl _,
    (future_start_check utcServer nineAm bookedStore 7 nineAm nineThirty).1 (le_refl _),
    by decide,
    (future_start_check utcServer sampleNow bookedStore 7 nineAm nineThirty).2.2.1
      (by decide)⟩

/-- C10.  The 400 answer of `POST /book` is that of the first failing check in the order
(1) both fields present, then both parseable, (2) start after the request time,
(3) business hours, (4) duration; the claim protocol runs only when all pass.  A
rejected request gets the same answer on every database and returns the database as it
was.  A past 08:00-09:00 request gets the past-date answer, a future one the
business-hours answer (not the duration answer). -/
theorem validation_order (srv : Server) (now : Int) (s : Store) (userId : Nat)
    (startAt endAt : DateInput) (st en d : Int) :
    ((startAt = .missing ∨ endAt = .missing) →
      bookSlot srv now s userId startAt endAt = (.badRequest .timesRequired, s)) ∧
    (startAt ≠ .missing → endAt ≠ .missing → (startAt = .malformed ∨ endAt = .malformed) →
      bookSlot srv now s userId startAt endAt = (.badRequest .invalidDateFormat, s)) ∧
    (st ≤ now →
      bookSlot srv now s userId (.instant st) (.instant en) = (.badRequest .pastSlot, s)) ∧
    (now < st → (getHours srv.tz st < 9 ∨ getHours srv.tz en > 17) →
      bookSlot srv now s userId (.instant st) (.instant en) =
        (.badRequest .outsideBusinessHours, s)) ∧
    (now < st → ¬ (getHours srv.tz st < 9 ∨ getHours srv.tz en > 17) →
      en - st ≠ 1800000 →
      bookSlot srv now s userId (.instant st) (.instant en) =
        (.badRequest .wrongDuration, s)) ∧
    (now < st → ¬ (getHours srv.tz st < 9 ∨ getHours srv.tz en > 17) →
      en - st = 1800000 →
      bookSlot srv now s userId (.instant st) (.instant en) =
        claimSlot srv s userId st en) ∧
    (∀ e, (bookSlot srv now s userId startAt endAt).1 = .badRequest e →
      ∀ s2 : Store, bookSlot srv now s2 userId startAt endAt = (.badRequest e, s2)) ∧
    (atLocal srv.tz d 8 0 ≤ now →
      bookSlot srv now s userId (.instant (atLocal srv.tz d 8 0))
          (.instant (atLocal srv.tz d 9 0)) =
        (.badRequest .pastSlot, s)) ∧
    (now < atLocal srv.tz d 8 0 →
      bookSlot srv now s userId (.instant (atLocal srv.tz d 8 0))
          (.instant (atLocal srv.tz d 9 0)) =
        (.badRequest .outsideBusinessHours, s)) := by
  have a8 : getHours srv.tz (atLocal srv.tz d 8 0) = 8 :=
    getHours_atLocal _ _ _ _ (by norm_num) (by norm_num) (by norm_num) (by norm_num)
  refine ⟨?_, ?_, ?_, ?_, ?_, ?_, ?_, ?_, ?_⟩
  · intro h
    apply bookSlot_of_rejected
    rcases h with h | h
    · subst h; cases endAt <;> rfl
    · subst h; cases startAt <;> rfl
  · intro h1 h2 h
    apply bookSlot_of_rejected
    rcases h with h | h
    · subst h; cases endAt <;> first | rfl | exact absurd rfl h2
    · subst h; cases startAt <;> first | rfl | exact absurd rfl h1
  · intro h
    exact bookSlot_of_rejected (validateBooking_past h) s userId
  · intro h hh
    exact bookSlot_of_rejected (validateBooking_hours h hh) s userId
  · intro h hh hd
    exact bookSlot_of_rejected (validateBooking_duration h hh (by omega)) s userId
  · intro h hh hd
    exact bookSlot_of_accepted (validateBooking_pass h hh (by omega)) s userId
  · intro e he s2
    exact bookSlot_of_rejected (rejected_of_badRequest he) s2 userId
  · intro h
    exact bookSlot_of_rejected (validateBooking_past h) s userId
  · intro h
    exact bookSlot_of_rejected (validateBooking_hours h (Or.inl (by rw [a8]; norm_num)))
      s userId

/-- Instance of C10: the earlier failing check decides the answer. -/
theorem validation_order_witness :
    atLocal 0 sampleDay 8 0 ≤ nineAm ∧
    bookSlot utcServer nineAm bookedStore 7 (.instant (atLocal 0 sampleDay 8 0))
        (.instant (atLocal 0 sampleDay 9 0)) =
      (.badRequest .pastSlot, bookedStore) ∧
    sampleNow < atLocal 0 sampleDay 8 0 ∧
    bookSlot utcServer sampleNow bookedStore 7 (.instant (atLocal 0 sampleDay 8 0))
        (.instant (atLocal 0 sampleDay 9 0)) =
      (.badRequest .outsideBusinessHours, bookedStore) ∧
    bookSlot utcServer sampleNow bookedStore 7 .malformed .missing =
      (.badRequest .timesRequired, bookedStore) :=
  ⟨by decide,
    (validation_order utcServer nineAm bookedStore 7 .missing .missing 0 0 sampleDay).2.2.2.2.2.2.2.1
      (by decide),
    by decide,
    (validation_order utcServer sampleNow bookedStore 7 .missing .missing 0 0
      sampleDay).2.2.2.2.2.2.2.2 (by decide),
    (validation_order utcServer sampleNow bookedStore 7 .malformed .missing 0 0 sampleDay).1
      (Or.inr rfl)⟩

/-! ## C11, C12 : booking, cancelling and the listing -/

/-- C11, counterexample.  On the empty database a future 09:15-09:45 is booked with 201,
yet the listing of that day has no view starting at 09:15 and shows every slot free:
the generator only steps through 09:00, 09:30, ...  A future 09:00-09:30 nine days
after the request day is booked with 201 too, yet the listing of that day is empty:
the look-ahead keeps only the slots of the next seven days. -/
theorem booked_slot_not_listed :
    bookSlot utcServer sampleNow Store.empty 7 (.instant (atLocal 0 sampleDay 9 15))
        (.instant (atLocal 0 sampleDay 9 45)) =
      (.created ⟨1, 7, 1, .confirmed⟩,
        ⟨[⟨1, atLocal 0 sampleDay 9 15, atLocal 0 sampleDay 9 45, true⟩],
          [⟨1, 7, 1, .confirmed⟩]⟩) ∧
    (∃ views,
      listSlots utcServer sampleNow
        ⟨[⟨1, atLocal 0 sampleDay 9 15, atLocal 0 sampleDay 9 45, true⟩],
          [⟨1, 7, 1, .confirmed⟩]⟩ janSixth janSixth = .ok views ∧
      views.length = 16 ∧
      ∀ v ∈ views, v.startAt ≠ atLocal 0 sampleDay 9 15 ∧ v.isBooked = false) ∧
    bookSlot utcServer sampleNow Store.empty 7 (.instant (atLocal 0 (sampleDay + 9) 9 0))
        (.instant (atLocal 0 (sampleDay + 9) 9 30)) =
      (.created ⟨1, 7, 1, .confirmed⟩,
        ⟨[⟨1, atLocal 0 (sampleDay + 9) 9 0, atLocal 0 (sampleDay + 9) 9 30, true⟩],
          [⟨1, 7, 1, .confirmed⟩]⟩) ∧
    listSlots utcServer sampleNow
        ⟨[⟨1, atLocal 0 (sampleDay + 9) 9 0, atLocal 0 (sampleDay + 9) 9 30, true⟩],
          [⟨1, 7, 1, .confirmed⟩]⟩
        (.instant (atLocal 0 (sampleDay + 9) 0 0))
        (.instant (atLocal 0 (sampleDay + 9) 0 0)) = .ok [] := by
  refine ⟨by decide, ⟨_, rfl, by decide, by decide⟩, by decide, by decide⟩

/-- C11, amended.  Take a future slot of the grid: day `d`, start `h:m` with
`9 ≤ h ≤ 16` and `m` 0 or 30, end half an hour later.  On a database with no Slot for
the pair, no Booking matched by the lookup of line 59, and Bookings that all reference
stored Slots, `bookSlot` answers 201; and a later listing whose `from..to` covers day
`d` and whose look-ahead (request-day midnight up to seven times 24 hours later)
contains the start returns the view of the pair with `isBooked = true`. -/
theorem book_then_listed (srv : Server) (now now2 : Int) (s : Store) (userId : Nat)
    (d h m f t : Int) (hh : 9 ≤ h ∧ h ≤ 16) (hm : m = 0 ∨ m = 30)
    (hfut : now < atLocal srv.tz d h m)
    (hs : Slot.findOne s.slots (atLocal srv.tz d h m) (atLocal srv.tz d h (m + 30)) = none)
    (hq : s.bookings.find? (fun b => srv.slotPathFilter s.slots b (atLocal srv.tz d h m)
      (atLocal srv.tz d h (m + 30))) = none)
    (hr : ∀ b ∈ s.bookings, ∃ sl ∈ s.slots, sl.id = b.slotId)
    (hcov : localDay srv.tz f ≤ d ∧ d ≤ localDay srv.tz t)
    (hwin : setHours srv.tz now2 0 ≤ atLocal srv.tz d h m ∧
      atLocal srv.tz d h m ≤ setHours srv.tz now2 0 + 7 * 24 * 60 * 60 * 1000) :
    ∃ bk s1 views,
      bookSlot srv now s userId (.instant (atLocal srv.tz d h m))
        (.instant (atLocal srv.tz d h (m + 30))) = (.created bk, s1) ∧
      (Response.created bk).code = 201 ∧
      listSlots srv now2 s1 (.instant f) (.instant t) = .ok views ∧
      (⟨atLocal srv.tz d h m, atLocal srv.tz d h (m + 30), true⟩ : SlotView) ∈ views := by
  have hhalf : halfHour = 1800000 := by decide
  have hen : atLocal srv.tz d h (m + 30) = atLocal srv.tz d h m + halfHour := by
    rw [hhalf]; unfold atLocal; omega
  have h9 : 9 ≤ getHours srv.tz (atLocal srv.tz d h m) := by
    unfold getHours atLocal; omega
  have h17 : getHours srv.tz (atLocal srv.tz d h (m + 30)) ≤ 17 := by
    unfold getHours atLocal; omega
  have hok : ¬ (getHours srv.tz (atLocal srv.tz d h m) < 9 ∨
      getHours srv.tz (atLocal srv.tz d h (m + 30)) > 17) := by omega
  have hdur : atLocal srv.tz d h (m + 30) - atLocal srv.tz d h m = 30 * (1000 * 60) := by
    unfold atLocal; omega
  have hv := validateBooking_pass hfut hok hdur
  have hlt : ¬ atLocal srv.tz d h (m + 30) ≤ atLocal srv.tz d h m := by omega
  have hfree : (s.bookings.any fun b => b.slotId == freshId (s.slots.map (·.id))) = false := by
    rw [List.any_eq_false]
    intro b hb
    obtain ⟨sl, hsl, hid⟩ := hr b hb
    have : sl.id < freshId (s.slots.map (·.id)) := lt_freshId (List.mem_map_of_mem _ hsl)
    simp only [beq_iff_eq]
    omega
  have hbook : bookSlot srv now s userId (.instant (atLocal srv.tz d h m))
      (.instant (atLocal srv.tz d h (m + 30))) =
      (.created ⟨freshId (s.bookings.map (·.id)), userId, freshId (s.slots.map (·.id)),
          .confirmed⟩,
        ⟨s.slots ++ [⟨freshId (s.slots.map (·.id)), atLocal srv.tz d h m,
            atLocal srv.tz d h (m + 30), true⟩],
          s.bookings ++ [⟨freshId (s.bookings.map (·.id)), userId,
            freshId (s.slots.map (·.id)), .confirmed⟩]⟩) := by
    rw [bookSlot_of_accepted hv]
    simp [claimSlot, hq, hs, Slot.create, Slot.saveRefused, hlt, saveBooking, Booking.create,
      hfree]
  refine ⟨_, _, _, hbook, rfl, rfl, ?_⟩
  rw [mem_listSlots rfl]
  refine ⟨⟨(atLocal srv.tz d h m, atLocal srv.tz d h (m + 30)), ?_, ?_⟩, hwin.1, hwin.2⟩
  · rw [mem_generateSlots]
    refine ⟨((atLocal srv.tz d h m - setHours srv.tz f 9) / 1800000).toNat, ?_, ?_, h9, ?_,
      hen⟩
    · rw [hhalf]; unfold setHours atLocal
      generalize localDay srv.tz f = fd at hcov
      omega
    · unfold setHours atLocal
      generalize localDay srv.tz t = td at hcov
      omega
    · rw [← hen]; exact h17
  · have hp : (atLocal srv.tz d h m, atLocal srv.tz d h (m + 30)) ∈
        generateSlots srv.tz (setHours srv.tz f 9) (setHours srv.tz t 17) := by
      rw [mem_generateSlots]
      refine ⟨((atLocal srv.tz d h m - setHours srv.tz f 9) / 1800000).toNat, ?_, ?_, h9, ?_,
        hen⟩
      · rw [hhalf]; unfold setHours atLocal
        generalize localDay srv.tz f = fd at hcov
        omega
      · unfold setHours atLocal
        generalize localDay srv.tz t = td at hcov
        omega
      · rw [← hen]; exact h17
    have hb := (overlay_isBooked_iff
      ⟨s.slots ++ [⟨freshId (s.slots.map (·.id)), atLocal srv.tz d h m,
            atLocal srv.tz d h (m + 30), true⟩],
          s.bookings ++ [⟨freshId (s.bookings.map (·.id)), userId,
            freshId (s.slots.map (·.id)), .confirmed⟩]⟩ hp).mpr
      ⟨⟨freshId (s.slots.map (·.id)), atLocal srv.tz d h m, atLocal srv.tz d h (m + 30),
        true⟩, by simp, rfl, rfl⟩
    simp only [overlay] at hb ⊢
    rw [hb]

/-- Instance of C11 (amended): 09:00-09:30 of 2025-01-06 is booked on the empty database
and listed as booked. -/
theorem book_then_listed_witness :
    sampleNow < atLocal 0 sampleDay 9 0 ∧
    bookSlot utcServer sampleNow Store.empty 7 (.instant nineAm) (.instant nineThirty) =
      (.created ⟨1, 7, 1, .confirmed⟩, bookedStore) ∧
    ∃ bk s1 views,
      bookSlot utcServer sampleNow Store.empty 7 (.instant (atLocal 0 sampleDay 9 0))
        (.instant (atLocal 0 sampleDay 9 (0 + 30))) = (.created bk, s1) ∧
      (Response.created bk).code = 201 ∧
      listSlots utcServer sampleNow s1 (.instant (atLocal 0 sampleDay 0 0))
        (.instant (atLocal 0 sampleDay 0 0)) = .ok views ∧
      (⟨atLocal 0 sampleDay 9 0, atLocal 0 sampleDay 9 (0 + 30), true⟩ : SlotView) ∈ views :=
  ⟨by decide, by decide,
    book_then_listed utcServer sampleNow sampleNow Store.empty 7 sampleDay 9 0
      (atLocal 0 sampleDay 0 0) (atLocal 0 sampleDay 0 0) (by decide) (by decide)
      (by decide) (by decide) (by decide) (by decide) (by decide) (by decide)⟩

/-- C12.  After `bookSlot` succeeds and `setStatus` cancels the resulting booking, the
stored Slot for the pair has `isBooked = false` and every listing is the one before the
booking; so a slot that the listing showed with `isBooked = false` before the booking
is returned with `isBooked = false` again.  (Slot `_id`s are unique, as MongoDB
guarantees.) -/
theorem book_cancel_round_trip (srv : Server) (now : Int) (s s1 : Store) (userId : Nat)
    (startAt endAt : DateInput) (bk : Booking)
    (hid : (s.slots.map (·.id)).Nodup)
    (h : bookSlot srv now s userId startAt endAt = (.created bk, s1)) :
    ∃ st en sl s2,
      validateBooking srv.tz now startAt endAt = .accepted st en ∧
      setStatus s1 bk.id (some "cancelled") =
        (.updated { bk with status := .cancelled }, s2) ∧
      Slot.findOne s2.slots st en = some sl ∧ sl.id = bk.slotId ∧ sl.isBooked = false ∧
      (∀ now2 dateFrom dateTo,
        listSlots srv now2 s2 dateFrom dateTo = listSlots srv now2 s dateFrom dateTo) ∧
      (∀ now2 f t views, listSlots srv now2 s (.instant f) (.instant t) = .ok views →
        (⟨st, en, false⟩ : SlotView) ∈ views →
        ∃ views2, listSlots srv now2 s2 (.instant f) (.instant t) = .ok views2 ∧
          (⟨st, en, false⟩ : SlotView) ∈ views2) := by
  obtain ⟨st, en, hv, hc⟩ := accepted_of_created h
  obtain ⟨h1, h2⟩ := slots_after_book_cancel hid hc
  have hb := bookedSlots_after_book_cancel hid hc
  rw [h1] at hb
  have hl : ∀ now2 dateFrom dateTo,
      listSlots srv now2 ⟨Slot.setBooked bk.slotId false s1.slots,
        Booking.setStatus bk.id .cancelled s1.bookings⟩ dateFrom dateTo =
      listSlots srv now2 s dateFrom dateTo :=
    fun now2 dateFrom dateTo => listSlots_congr hb srv now2 dateFrom dateTo
  rcases h2 with ⟨hs, h2⟩ | ⟨sl, hs, hfree, hslid, h2⟩
  · refine ⟨st, en, ⟨bk.slotId, st, en, false⟩, _, hv, h1, ?_, rfl, rfl, hl, ?_⟩
    · show Slot.findOne (Slot.setBooked bk.slotId false s1.slots) st en = _
      rw [h2]
      unfold Slot.findOne at hs ⊢
      rw [List.find?_append, hs]
      simp
    · intro now2 f t views hviews hmem
      exact ⟨views, by rw [hl]; exact hviews, hmem⟩
  · refine ⟨st, en, sl, _, hv, h1, ?_, hslid.symm, hfree, hl, ?_⟩
    · show Slot.findOne (Slot.setBooked bk.slotId false s1.slots) st en = _
      rw [h2]
      exact hs
    · intro now2 f t views hviews hmem
      exact ⟨views, by rw [hl]; exact hviews, hmem⟩

/-- Instance of C12: 09:00-09:30 is booked on the empty database and cancelled; the
listing of 2025-01-06 shows it free before and after. -/
theorem book_cancel_round_trip_witness :
    bookSlot utcServer sampleNow Store.empty 7 (.instant nineAm) (.instant nineThirty) =
      (.created ⟨1, 7, 1, .confirmed⟩, bookedStore) ∧
    setStatus bookedStore 1 (some "cancelled") =
      (.updated ⟨1, 7, 1, .cancelled⟩, cancelledStore) ∧
    (∃ views, listSlots utcServer sampleNow Store.empty janSixth janSixth = .ok views ∧
      (⟨nineAm, nineThirty, false⟩ : SlotView) ∈ views) ∧
    ∃ st en sl s2,
      validateBooking 0 sampleNow (.instant nineAm) (.instant nineThirty) =
        .accepted st en ∧
      setStatus bookedStore 1 (some "cancelled") = (.updated ⟨1, 7, 1, .cancelled⟩, s2) ∧
      Slot.findOne s2.slots st en = some sl ∧ sl.id = 1 ∧ sl.isBooked = false ∧
      (∀ now2 dateFrom dateTo,
        listSlots utcServer now2 s2 dateFrom dateTo =
          listSlots utcServer now2 Store.empty dateFrom dateTo) ∧
      (∀ now2 f t views,
        listSlots utcServer now2 Store.empty (.instant f) (.instant t) = .ok views →
        (⟨st, en, false⟩ : SlotView) ∈ views →
        ∃ views2, listSlots utcServer now2 s2 (.instant f) (.instant t) = .ok views2 ∧
          (⟨st, en, false⟩ : SlotView) ∈ views2) :=
  ⟨by decide, by decide, ⟨_, rfl, by decide⟩,
    book_cancel_round_trip utcServer sampleNow Store.empty bookedStore 7 (.instant nineAm)
      (.instant nineThirty) ⟨1, 7, 1, .confirmed⟩ (by decide) (by decide)⟩

/-! ## C13 - C16 : the status handler -/

/-- C13.  A successful `setStatus(bookingId, newStatus)` writes `newStatus` into the
Booking found by the id and leaves every other Booking as it was.  When `newStatus` is
`confirmed` or `completed` the Slot collection is unchanged.  When it is `cancelled`
the referenced Slot (the first with that `_id`) gets `isBooked = false` and every other
Slot is unchanged; without such a Slot the collection is unchanged. -/
theorem setStatus_effect (s s2 : Store) (id : Nat) (status : Option String) (b2 : Booking)
    (h : setStatus s id status = (.updated b2, s2)) :
    ∃ st b pre post,
      status.bind Status.ofString? = some st ∧
      s.bookings = pre ++ b :: post ∧ (∀ x ∈ pre, x.id ≠ id) ∧ b.id = id ∧
      b2 = { b with status := st } ∧
      s2.bookings = pre ++ { b with status := st } :: post ∧
      (st ≠ .cancelled → s2.slots = s.slots) ∧
      (st = .cancelled → (∀ sl ∈ s.slots, sl.id ≠ b.slotId) → s2.slots = s.slots) ∧
      (st = .cancelled → ∀ p sl q, s.slots = p ++ sl :: q → (∀ x ∈ p, x.id ≠ b.slotId) →
        sl.id = b.slotId → s2.slots = p ++ { sl with isBooked := false } :: q) := by
  unfold setStatus at h
  cases hst : status.bind Status.ofString? with
  | none => rw [hst] at h; simp at h
  | some st =>
    rw [hst] at h
    cases hf : s.bookings.find? (fun b => b.id == id) with
    | none => rw [hf] at h; simp at h
    | some b =>
      rw [hf] at h
      obtain ⟨pre, post, hl, hpre, hb, hset⟩ := Booking.setStatus_of_find st hf
      simp only [Prod.mk.injEq, StatusResponse.updated.injEq] at h
      obtain ⟨h1, h2⟩ := h
      refine ⟨st, b, pre, post, rfl, hl, hpre, hb, h1.symm, ?_, ?_, ?_, ?_⟩
      · rw [← h2, ← hset]
        split <;> rfl
      · intro hc
        rw [← h2]
        simp [hc]
      · intro _ habs
        rw [← h2]
        split
        · exact Slot.setBooked_of_absent false habs
        · rfl
      · intro hc p sl q hs hp hsl
        rw [← h2]
        have hany : s.slots.any (fun x => x.id == b.slotId) = true := by
          rw [hs]; simp [hsl]
        rw [if_pos ⟨hc, hany⟩]
        show Slot.setBooked b.slotId false s.slots = _
        rw [hs]
        exact Slot.setBooked_of_split false hp hsl

/-- Instance of C13: cancelling the booking of user 7 frees its slot. -/
theorem setStatus_effect_witness :
    setStatus bookedStore 1 (some "cancelled") = (.updated ⟨1, 7, 1, .cancelled⟩, cancelledStore) ∧
    ∃ st b pre post,
      (some "cancelled").bind Status.ofString? = some st ∧
      bookedStore.bookings = pre ++ b :: post ∧ (∀ x ∈ pre, x.id ≠ 1) ∧ b.id = 1 ∧
      (⟨1, 7, 1, .cancelled⟩ : Booking) = { b with status := st } ∧
      cancelledStore.bookings = pre ++ { b with status := st } :: post ∧
      (st ≠ .cancelled → cancelledStore.slots = bookedStore.slots) ∧
      (st = .cancelled → (∀ sl ∈ bookedStore.slots, sl.id ≠ b.slotId) →
        cancelledStore.slots = bookedStore.slots) ∧
      (st = .cancelled → ∀ p sl q, bookedStore.slots = p ++ sl :: q →
        (∀ x ∈ p, x.id ≠ b.slotId) → sl.id = b.slotId →
        cancelledStore.slots = p ++ { sl with isBooked := false } :: q) :=
  ⟨by decide, setStatus_effect bookedStore cancelledStore 1 (some "cancelled")
    ⟨1, 7, 1, .cancelled⟩ (by decide)⟩

/-- C14.  A status that is not one of the strings `confirmed`, `cancelled`, `completed`
(a missing status and another letter case included) is answered 400 for every booking
id, stored or not, whatever storage operation would fail, and the database is returned
as it was; the three allowed strings never get that answer. -/
theorem setStatus_invalid_status (s : Store) (id : Nat) (status : Option String)
    (fault : StatusFault) :
    ((∀ str, status = some str → str ∉ allowedStatuses) →
      setStatus s id status = (.invalidStatus, s) ∧
      setStatusUnder fault s id status = (.invalidStatus, s)) ∧
    (∀ str ∈ allowedStatuses, (setStatus s id (some str)).1 ≠ .invalidStatus) ∧
    setStatus s id none = (.invalidStatus, s) ∧
    setStatus s id (some "Cancelled") = (.invalidStatus, s) ∧
    setStatus s id (some "CONFIRMED") = (.invalidStatus, s) ∧
    StatusResponse.invalidStatus.code = 400 := by
  refine ⟨?_, ?_, rfl, ?_, ?_, rfl⟩
  · intro h
    have hn : status.bind Status.ofString? = none := by
      cases status with
      | none => rfl
      | some str =>
        have := h str rfl
        rw [← Status.ofString?_isSome_iff] at this
        simpa using this
    constructor
    · unfold setStatus; rw [hn]
    · unfold setStatusUnder; rw [hn]
  · intro str hstr
    rw [← Status.ofString?_isSome_iff] at hstr
    obtain ⟨st, hst⟩ := Option.isSome_iff_exists.mp hstr
    have hb : (some str).bind Status.ofString? = some st := by simp [hst]
    unfold setStatus
    rw [hb]
    cases s.bookings.find? (fun b => b.id == id) <;> simp
  · unfold setStatus; simp [Status.ofString?]
  · unfold setStatus; simp [Status.ofString?]

/-- Instance of C14: the status `done` for the stored booking 1. -/
theorem setStatus_invalid_status_witness :
    (∀ str, some "done" = some str → str ∉ allowedStatuses) ∧
    setStatus bookedStore 1 (some "done") = (.invalidStatus, bookedStore) ∧
    "confirmed" ∈ allowedStatuses ∧
    (setStatus bookedStore 1 (some "confirmed")).1 ≠ .invalidStatus :=
  ⟨by decide,
    ((setStatus_invalid_status bookedStore 1 (some "done") .noFault).1 (by decide)).1,
    by decide,
    (setStatus_invalid_status bookedStore 1 (some "done") .noFault).2.1 "confirmed"
      (by decide)⟩

/-- C15.  When the write of the new status (line 258) fails, the handler answers 500 and
the database, the flag of the referenced slot included, is the one before the call.  In
every failure scenario the Slot collection changes only after the status write went
through. -/
theorem setStatus_failed_write (s : Store) (id : Nat) (status : Option String)
    (fault : StatusFault) :
    (setStatusUnder .saveBooking s id status).2 = s ∧
    (∀ st b, status.bind Status.ofString? = some st →
      s.bookings.find? (fun x => x.id == id) = some b →
      setStatusUnder .saveBooking s id status = (.serverError, s)) ∧
    (∀ b, s.bookings.find? (fun x => x.id == id) = some b →
      setStatusUnder .saveBooking s id (some "cancelled") = (.serverError, s)) ∧
    ((setStatusUnder fault s id status).2.slots ≠ s.slots →
      ∃ st, status.bind Status.ofString? = some st ∧
        (setStatusUnder fault s id status).2.bookings =
          Booking.setStatus id st s.bookings) ∧
    StatusResponse.serverError.code = 500 := by
  have key : ∀ st b, status.bind Status.ofString? = some st →
      s.bookings.find? (fun x => x.id == id) = some b →
      setStatusUnder .saveBooking s id status = (.serverError, s) := by
    intro st b hst hf
    unfold setStatusUnder
    rw [hst]
    simp [hf]
  refine ⟨?_, key, ?_, ?_, rfl⟩
  · cases hst : status.bind Status.ofString? with
    | none => unfold setStatusUnder; rw [hst]
    | some st =>
      cases hf : s.bookings.find? (fun x => x.id == id) with
      | none => unfold setStatusUnder; rw [hst]; simp [hf]
      | some b => rw [key st b hst hf]
  · intro b hf
    unfold setStatusUnder
    simp [Status.ofString?, hf]
  · intro hne
    cases hst : status.bind Status.ofString? with
    | none =>
      exfalso; apply hne
      unfold setStatusUnder; rw [hst]
    | some st =>
      refine ⟨st, rfl, ?_⟩
      unfold setStatusUnder at hne ⊢
      rw [hst] at hne ⊢
      simp only at hne ⊢
      by_cases h1 : fault = .findBooking
      · exact absurd (by rw [if_pos h1]) hne
      · rw [if_neg h1] at hne ⊢
        cases hf : s.bookings.find? (fun x => x.id == id) with
        | none => exact absurd (by simp only [hf]) hne
        | some b =>
          simp only [hf] at hne ⊢
          by_cases h2 : fault = .saveBooking
          · exact absurd (by rw [if_pos h2]) hne
          · rw [if_neg h2] at hne ⊢
            split
            · split <;> rfl
            · rfl

/-- Instance of C15: the status write of a cancellation fails. -/
theorem setStatus_failed_write_witness :
    (some "cancelled").bind Status.ofString? = some .cancelled ∧
    bookedStore.bookings.find? (fun x => x.id == 1) = some ⟨1, 7, 1, .confirmed⟩ ∧
    setStatusUnder .saveBooking bookedStore 1 (some "cancelled") =
      (.serverError, bookedStore) :=
  ⟨by decide, by decide,
    (setStatus_failed_write bookedStore 1 (some "cancelled") .noFault).2.1 .cancelled
      ⟨1, 7, 1, .confirmed⟩ (by decide) (by decide)⟩

/-- C16.  For a stored booking `b`, `setStatus(b, cancelled)` applied twice succeeds
twice and leaves the database of the first call: the status is `cancelled`, the
referenced slot has `isBooked = false`, nothing else is written. -/
theorem setStatus_cancel_twice (s : Store) (id : Nat) (b : Booking)
    (h : s.bookings.find? (fun x => x.id == id) = some b) :
    (setStatus s id (some "cancelled")).1 = .updated { b with status := .cancelled } ∧
    (setStatus (setStatus s id (some "cancelled")).2 id (some "cancelled")).1 =
      .updated { b with status := .cancelled } ∧
    (setStatus (setStatus s id (some "cancelled")).2 id (some "cancelled")).2 =
      (setStatus s id (some "cancelled")).2 ∧
    (setStatus s id (some "cancelled")).2.bookings =
      Booking.setStatus id .cancelled s.bookings ∧
    (setStatus s id (some "cancelled")).2.slots = Slot.setBooked b.slotId false s.slots := by
  have hst : (some "cancelled").bind Status.ofString? = some .cancelled := by decide
  have e1 : setStatus s id (some "cancelled") =
      (.updated { b with status := .cancelled },
        ⟨Slot.setBooked b.slotId false s.slots,
          Booking.setStatus id .cancelled s.bookings⟩) := by
    unfold setStatus
    rw [hst, h]
    simp only [true_and]
    by_cases ha : s.slots.any (fun sl => sl.id == b.slotId) = true
    · rw [if_pos ha]
    · rw [if_neg ha]
      have hab : ∀ x ∈ s.slots, x.id ≠ b.slotId := by
        simpa using ha
      rw [Slot.setBooked_of_absent false hab]
  have h2 : (Booking.setStatus id .cancelled s.bookings).find? (fun x => x.id == id) =
      some { b with status := .cancelled } := by
    rw [Booking.find?_setStatus, h]; rfl
  have e2 : setStatus ⟨Slot.setBooked b.slotId false s.slots,
        Booking.setStatus id .cancelled s.bookings⟩ id (some "cancelled") =
      (.updated { b with status := .cancelled },
        ⟨Slot.setBooked b.slotId false s.slots,
          Booking.setStatus id .cancelled s.bookings⟩) := by
    unfold setStatus
    rw [hst]
    simp only [h2, true_and, Booking.setStatus_idem, Slot.setBooked_idem]
    split <;> rfl
  rw [e1]
  refine ⟨rfl, ?_, ?_, rfl, rfl⟩
  · rw [e2]
  · rw [e2]

/-- Instance of C16: booking 1 of the sample database is cancelled twice. -/
theorem setStatus_cancel_twice_witness :
    bookedStore.bookings.find? (fun x => x.id == 1) = some ⟨1, 7, 1, .confirmed⟩ ∧
    (setStatus (setStatus bookedStore 1 (some "cancelled")).2 1 (some "cancelled")).2 =
      (setStatus bookedStore 1 (some "cancelled")).2 ∧
    (setStatus bookedStore 1 (some "cancelled")).2 = cancelledStore :=
  ⟨by decide,
    (setStatus_cancel_twice bookedStore 1 ⟨1, 7, 1, .confirmed⟩ (by decide)).2.2.1,
    by decide⟩

/-! ## C17 - C20 : the slot listing -/

/-- C17, counterexample.  With `from` = 2025-01-07 and `to` = 2025-01-06 both dates
parse and `from` is later than `to`; the answer is 200 with an empty list, not 400. -/
theorem listSlots_reversed_range_ok :
    listSlots utcServer sampleNow bookedStore janSeventh janSixth = .ok [] ∧
    (listSlots utcServer sampleNow bookedStore janSeventh janSixth).code = 200 := by
  decide

/-- C17, amended.  `listSlots(from, to)` is answered 400 whenever `from` or `to` is
missing or unparseable; when both parse it is answered 200 with a slot list, and the
list is empty when the day of `from` is later than the day of `to`. -/
theorem listSlots_range_check (srv : Server) (now : Int) (s : Store)
    (dateFrom dateTo : DateInput) (f t : Int) :
    ((dateFrom = .missing ∨ dateTo = .missing) →
      listSlots srv now s dateFrom dateTo = .badRequest .paramsRequired) ∧
    (dateFrom ≠ .missing → dateTo ≠ .missing →
      (dateFrom = .malformed ∨ dateTo = .malformed) →
      listSlots srv now s dateFrom dateTo = .badRequest .invalidDateFormat) ∧
    (∃ views, listSlots srv now s (.instant f) (.instant t) = .ok views) ∧
    (localDay srv.tz t < localDay srv.tz f →
      listSlots srv now s (.instant f) (.instant t) = .ok []) ∧
    (∀ e, (SlotsResponse.badRequest e).code = 400) ∧
    (∀ views, (SlotsResponse.ok views).code = 200) := by
  refine ⟨?_, ?_, ⟨_, rfl⟩, ?_, fun _ => rfl, fun _ => rfl⟩
  · intro h
    rcases h with h | h
    · subst h; cases dateTo <;> rfl
    · subst h; cases dateFrom <;> rfl
  · intro h1 h2 h
    rcases h with h | h
    · subst h; cases dateTo <;> first | rfl | exact absurd rfl h2
    · subst h; cases dateFrom <;> first | rfl | exact absurd rfl h1
  · intro h
    have hle : setHours srv.tz t 17 ≤ setHours srv.tz f 9 := by
      unfold setHours atLocal; omega
    simp [listSlots, availableSlots, generateSlots_of_le hle]

/-- Instance of C17 (amended): a missing `to`, and a reversed range. -/
theorem listSlots_range_check_witness :
    listSlots utcServer sampleNow bookedStore janSixth .missing =
      .badRequest .paramsRequired ∧
    localDay 0 (atLocal 0 sampleDay 0 0) < localDay 0 (atLocal 0 (sampleDay + 1) 0 0) ∧
    listSlots utcServer sampleNow bookedStore janSeventh janSixth = .ok [] :=
  ⟨(listSlots_range_check utcServer sampleNow bookedStore janSixth .missing 0 0).1
      (Or.inr rfl),
    by decide,
    (listSlots_range_check utcServer sampleNow bookedStore janSixth .missing
      (atLocal 0 (sampleDay + 1) 0 0) (atLocal 0 sampleDay 0 0)).2.2.2.1 (by decide)⟩

/-- C18, failing range.  On every day of the range but the last the loop also emits
17:00-17:30 and 23:30-24:00: the test of line 43 compares hours only, and both pairs
have a start hour of at least 9 and an end hour (17 and 0) of at most 17. -/
theorem generateSlots_after_five (tz f t d : Int) (h1 : localDay tz f ≤ d)
    (h2 : d < localDay tz t) :
    (atLocal tz d 17 0, atLocal tz d 17 30) ∈
      generateSlots tz (setHours tz f 9) (setHours tz t 17) ∧
    (atLocal tz d 23 30, atLocal tz (d + 1) 0 0) ∈
      generateSlots tz (setHours tz f 9) (setHours tz t 17) := by
  have hh : halfHour = 1800000 := by decide
  constructor
  · rw [mem_generateSlots]
    refine ⟨((atLocal tz d 17 0 - setHours tz f 9) / 1800000).toNat, ?_, ?_, ?_, ?_, ?_⟩
    · rw [hh]; unfold setHours atLocal; generalize localDay tz f = fd at h1; omega
    · unfold setHours atLocal; generalize localDay tz t = td at h2; omega
    · unfold getHours atLocal; omega
    · rw [hh]; unfold getHours atLocal; omega
    · rw [hh]; unfold atLocal; omega
  · rw [mem_generateSlots]
    refine ⟨((atLocal tz d 23 30 - setHours tz f 9) / 1800000).toNat, ?_, ?_, ?_, ?_, ?_⟩
    · rw [hh]; unfold setHours atLocal; generalize localDay tz f = fd at h1; omega
    · unfold setHours atLocal; generalize localDay tz t = td at h2; omega
    · unfold getHours atLocal; omega
    · rw [hh]; unfold getHours atLocal; omega
    · rw [hh]; unfold atLocal; omega

/-- Instance of C18: the range 2025-01-06 .. 2025-01-07 yields 34 slots, two of them
after 5:00 PM of the first day. -/
theorem generateSlots_after_five_witness :
    localDay 0 (atLocal 0 sampleDay 0 0) ≤ sampleDay ∧
    sampleDay < localDay 0 (atLocal 0 (sampleDay + 1) 0 0) ∧
    (atLocal 0 sampleDay 17 0, atLocal 0 sampleDay 17 30) ∈
      generateSlots 0 (setHours 0 (atLocal 0 sampleDay 0 0) 9)
        (setHours 0 (atLocal 0 (sampleDay + 1) 0 0) 17) ∧
    (generateSlots 0 (setHours 0 (atLocal 0 sampleDay 0 0) 9)
        (setHours 0 (atLocal 0 (sampleDay + 1) 0 0) 17)).length = 34 :=
  ⟨by decide, by decide,
    (generateSlots_after_five 0 (atLocal 0 sampleDay 0 0) (atLocal 0 (sampleDay + 1) 0 0)
      sampleDay (by decide) (by decide)).1,
    by decide⟩

/-- C19.  The returned slots are the generated slots whose `startAt` lies between the
local midnight of the request day and that midnight plus 7 x 24 hours, both inclusive,
in generation order; every returned slot starts on the request day or one of the six days
after it, so the answer covers at most 7 calendar days however wide `from..to` is. -/
theorem listSlots_look_ahead (srv : Server) (now : Int) (s : Store) (f t : Int) :
    ∃ views, listSlots srv now s (.instant f) (.instant t) = .ok views ∧
      views.map (fun v => (v.startAt, v.endAt)) =
        (generateSlots srv.tz (setHours srv.tz f 9) (setHours srv.tz t 17)).filter
          (fun p => decide (setHours srv.tz now 0 ≤ p.1) &&
            decide (p.1 ≤ setHours srv.tz now 0 + 7 * 24 * 60 * 60 * 1000)) ∧
      (∀ v ∈ views, setHours srv.tz now 0 ≤ v.startAt ∧
        v.startAt ≤ setHours srv.tz now 0 + 7 * 24 * 60 * 60 * 1000) ∧
      (∀ v ∈ views, localDay srv.tz now ≤ localDay srv.tz v.startAt ∧
        localDay srv.tz v.startAt ≤ localDay srv.tz now + 6) := by
  refine ⟨_, rfl, ?_, ?_, ?_⟩
  · simp only [availableSlots, List.filter_map, List.map_map]
    have e1 : (fun v : SlotView => (v.startAt, v.endAt)) ∘
        overlay (bookedSlots s (setHours srv.tz f 9) (setHours srv.tz t 17)) = id := by
      funext p; rfl
    have e2 : inLookAhead srv.tz now ∘
        overlay (bookedSlots s (setHours srv.tz f 9) (setHours srv.tz t 17)) =
        (fun p : Int × Int => decide (setHours srv.tz now 0 ≤ p.1) &&
          decide (p.1 ≤ setHours srv.tz now 0 + 7 * 24 * 60 * 60 * 1000)) := by
      funext p; rfl
    rw [e1, e2, List.map_id]
  · intro v hv
    exact ((mem_listSlots rfl v).mp hv).2
  · intro v hv
    obtain ⟨⟨p, hp, rfl⟩, h1, h2⟩ := (mem_listSlots rfl v).mp hv
    obtain ⟨a, b⟩ := p
    obtain ⟨k, _, _, h9, _, _⟩ := (mem_generateSlots _ _ _ a b).mp hp
    have h3 : setHours srv.tz now 0 ≤ a := h1
    have h4 : a ≤ setHours srv.tz now 0 + 7 * 24 * 60 * 60 * 1000 := h2
    show localDay srv.tz now ≤ localDay srv.tz a ∧
      localDay srv.tz a ≤ localDay srv.tz now + 6
    unfold setHours atLocal localDay at h3 h4
    unfold getHours at h9
    unfold localDay
    omega

/-- Instance of C19: asked on 2025-01-01 for 2025-01-06 .. 2025-01-07, the answer holds
the 18 slots of 2025-01-06 and the 16 of 2025-01-07; asked on 2024-12-25, it holds
none. -/
theorem listSlots_look_ahead_witness :
    (∃ views, listSlots utcServer sampleNow bookedStore janSixth janSeventh = .ok views ∧
      views.length = 34 ∧
      (∀ v ∈ views, localDay 0 sampleNow ≤ localDay 0 v.startAt ∧
        localDay 0 v.startAt ≤ localDay 0 sampleNow + 6)) ∧
    listSlots utcServer (sampleNow - 7 * 86400000) bookedStore janSixth janSeventh = .ok [] := by
  obtain ⟨views, h1, _, _, h4⟩ := listSlots_look_ahead utcServer sampleNow bookedStore
    (atLocal 0 sampleDay 0 0) (atLocal 0 (sampleDay + 1) 0 0)
  refine ⟨⟨views, h1, ?_, h4⟩, by decide⟩
  have h5 : listSlots utcServer sampleNow bookedStore janSixth janSeventh = .ok views := h1
  have h6 : (match listSlots utcServer sampleNow bookedStore janSixth janSeventh with
      | .ok l => l.length | .badRequest _ => 0) = 34 := by decide
  rw [h5] at h6
  exact h6

/-- Outside the databases the handlers write: a database whose only Slot is a booked
09:00-10:00.  The view of the generated slot 09:00-09:30 is returned with
`isBooked = true` although no stored Slot has both `startAt` and `endAt` equal to the
view's, because line 62 compares `startAt` only. -/
theorem listSlots_overlay_start_only :
    listSlots utcServer sampleNow hourSlotStore janSixth janSixth =
      .ok ((generateSlots 0 nineAm (atLocal 0 sampleDay 17 0)).map
        (fun p => ⟨p.1, p.2, decide (p.1 = nineAm)⟩)) ∧
    (∃ views, listSlots utcServer sampleNow hourSlotStore janSixth janSixth = .ok views ∧
      (⟨nineAm, nineThirty, true⟩ : SlotView) ∈ views) ∧
    ¬ ∃ sl ∈ hourSlotStore.slots,
      sl.startAt = nineAm ∧ sl.endAt = nineThirty ∧ sl.isBooked = true := by
  refine ⟨by decide, ⟨_, rfl, by decide⟩, by decide⟩

/-- The overlay on any database.  A returned view has `isBooked = true` exactly when the
database holds a Slot with the view's `startAt` and `isBooked = true`; when every stored
Slot lasts 30 minutes that Slot has the view's `endAt` as well.  A generated slot with
no stored record for its `startAt`, or with records whose `isBooked` is false, is
returned with `isBooked = false`. -/
theorem listSlots_overlay (srv : Server) (now : Int) (s : Store) (f t : Int)
    (views : List SlotView)
    (h : listSlots srv now s (.instant f) (.instant t) = .ok views)
    (v : SlotView) (hv : v ∈ views) :
    (v.isBooked = true ↔ ∃ sl ∈ s.slots, sl.startAt = v.startAt ∧ sl.isBooked = true) ∧
    v.endAt = v.startAt + halfHour ∧
    ((∀ sl ∈ s.slots, sl.endAt = sl.startAt + halfHour) →
      (v.isBooked = true ↔
        ∃ sl ∈ s.slots, sl.startAt = v.startAt ∧ sl.endAt = v.endAt ∧ sl.isBooked = true)) ∧
    ((∀ sl ∈ s.slots, sl.startAt = v.startAt → sl.isBooked = false) →
      v.isBooked = false) := by
  obtain ⟨⟨p, hp, rfl⟩, _, _⟩ := (mem_listSlots h v).mp hv
  have hiff := overlay_isBooked_iff s hp
  have hend : (overlay (bookedSlots s (setHours srv.tz f 9) (setHours srv.tz t 17)) p).endAt
      = (overlay (bookedSlots s (setHours srv.tz f 9) (setHours srv.tz t 17)) p).startAt
        + halfHour := by
    obtain ⟨a, b⟩ := p
    obtain ⟨k, _, _, _, _, hb⟩ := (mem_generateSlots _ _ _ a b).mp hp
    exact hb
  refine ⟨hiff, hend, ?_, ?_⟩
  · intro h30
    rw [hiff]
    constructor
    · rintro ⟨sl, hm, hs, hb⟩
      refine ⟨sl, hm, hs, ?_, hb⟩
      rw [hend, h30 sl hm]
      show sl.startAt + halfHour = p.1 + halfHour
      rw [hs]
    · rintro ⟨sl, hm, hs, _, hb⟩
      exact ⟨sl, hm, hs, hb⟩
  · intro hfree
    cases hb : (overlay (bookedSlots s (setHours srv.tz f 9) (setHours srv.tz t 17)) p).isBooked
      with
    | false => rfl
    | true =>
      obtain ⟨sl, hm, hs, hbk⟩ := hiff.mp hb
      have := hfree sl hm hs
      rw [this] at hbk
      exact absurd hbk (by decide)

/-- The first view of 2025-01-06 on the sample database. -/
theorem listSlots_overlay_witness :
    (∃ views, listSlots utcServer sampleNow bookedStore janSixth janSixth = .ok views ∧
      (⟨nineAm, nineThirty, true⟩ : SlotView) ∈ views) ∧
    ∃ sl ∈ bookedStore.slots, sl.startAt = nineAm ∧ sl.isBooked = true :=
  ⟨⟨_, rfl, by decide⟩,
    (listSlots_overlay utcServer sampleNow bookedStore (atLocal 0 sampleDay 0 0)
      (atLocal 0 sampleDay 0 0) _ rfl ⟨nineAm, nineThirty, true⟩ (by decide)).1.mp rfl⟩

/-- C20.  On every database that request sequences produce, a returned view has
`isBooked = true` if and only if the database holds a Slot whose `startAt` and `endAt`
both equal the view's and whose `isBooked` is true; a generated slot with no stored
record for its pair, or with a stored record whose `isBooked` is false, is returned with
`isBooked = false`. -/
theorem listSlots_overlay_of_reachable (srv : Server) (now : Int) (s : Store) (f t : Int)
    (views : List SlotView) (hr : Reachable srv s)
    (h : listSlots srv now s (.instant f) (.instant t) = .ok views)
    (v : SlotView) (hv : v ∈ views) :
    (v.isBooked = true ↔
      ∃ sl ∈ s.slots, sl.startAt = v.startAt ∧ sl.endAt = v.endAt ∧ sl.isBooked = true) ∧
    ((∀ sl ∈ s.slots, sl.startAt = v.startAt → sl.endAt = v.endAt → sl.isBooked = false) →
      v.isBooked = false) := by
  have hd := reachable_slot_duration hr
  have h30 : ∀ sl ∈ s.slots, sl.endAt = sl.startAt + halfHour := by
    intro sl hsl
    have := hd sl hsl
    unfold halfHour
    omega
  have hiff := (listSlots_overlay srv now s f t views h v hv).2.2.1 h30
  refine ⟨hiff, ?_⟩
  intro hfree
  cases hb : v.isBooked with
  | false => rfl
  | true =>
    obtain ⟨sl, hm, hs, he, hbk⟩ := hiff.mp hb
    have := hfree sl hm hs he
    rw [this] at hbk
    exact absurd hbk (by decide)

/-- Instance of C20: on the database after one booking the view of 09:00-09:30 is booked
and the view of 09:30-10:00 is free. -/
theorem listSlots_overlay_of_reachable_witness :
    Reachable utcServer bookedStore ∧
    (∃ views, listSlots utcServer sampleNow bookedStore janSixth janSixth = .ok views ∧
      (⟨nineAm, nineThirty, true⟩ : SlotView) ∈ views ∧
      (⟨nineThirty, nineThirty + halfHour, false⟩ : SlotView) ∈ views) ∧
    (∃ sl ∈ bookedStore.slots,
      sl.startAt = nineAm ∧ sl.endAt = nineThirty ∧ sl.isBooked = true) :=
  ⟨⟨[.book sampleNow 7 (.instant nineAm) (.instant nineThirty)], by decide⟩,
    ⟨_, rfl, by decide, by decide⟩,
    (listSlots_overlay_of_reachable utcServer sampleNow bookedStore (atLocal 0 sampleDay 0 0)
      (atLocal 0 sampleDay 0 0) _
      ⟨[.book sampleNow 7 (.instant nineAm) (.instant nineThirty)], by decide⟩ rfl
      ⟨nineAm, nineThirty, true⟩ (by decide)).1.mp rfl⟩

/-! ## C21, C22 : the booking listings -/

/-- C21.  For `T` bookings matching the filter, a limit `L ≥ 1` and a page `p ≥ 1`, the
answer of all-bookings reports `total = T` and `pages = ⌈T / L⌉` (the least `n` with
`T ≤ n * L`) and returns the formatted entries of the documents at positions
`(p - 1) * L` up to `min (p * L) T - 1` of the sorted result, in order: that is
`min L (T - (p - 1) * L)` entries; with `T = 45`, `L = 20`, `p = 3` these are 5 entries
and `pages = 3`.  (Every Booking references a stored Slot, which formatting reads.) -/
theorem allBookings_pagination (eng : SortEngine) (s : Store) (p l : Nat)
    (status : Option String) (hp : 1 ≤ p) (hl : 1 ≤ l)
    (hr : ∀ b ∈ s.bookings, ∃ sl ∈ s.slots, sl.id = b.slotId) :
    (∃ views,
      allBookings eng s (some p) (some l) status =
        .ok views ⟨p, l, (s.bookings.filter (statusQuery status)).length,
          some (((s.bookings.filter (statusQuery status)).length + l - 1) / l)⟩ ∧
      List.Forall₂ (fun b v => b.view s.slots = some v)
        (((eng.sort (s.bookings.filter (statusQuery status))).drop ((p - 1) * l)).take l)
        views ∧
      views.length = min l ((s.bookings.filter (statusQuery status)).length - (p - 1) * l)) ∧
    (∀ n, ((s.bookings.filter (statusQuery status)).length + l - 1) / l ≤ n ↔
      (s.bookings.filter (statusQuery status)).length ≤ n * l) ∧
    ((s.bookings.filter (statusQuery status)).length = 45 →
      ∃ views, allBookings eng s (some 3) (some 20) status = .ok views ⟨3, 20, 45, some 3⟩ ∧
        views.length = 5) := by
  have key : ∀ p l : Nat, 1 ≤ p → 1 ≤ l → ∃ views,
      allBookings eng s (some p) (some l) status =
        .ok views ⟨p, l, (s.bookings.filter (statusQuery status)).length,
          some (((s.bookings.filter (statusQuery status)).length + l - 1) / l)⟩ ∧
      List.Forall₂ (fun b v => b.view s.slots = some v)
        (((eng.sort (s.bookings.filter (statusQuery status))).drop ((p - 1) * l)).take l)
        views ∧
      views.length =
        min l ((s.bookings.filter (statusQuery status)).length - (p - 1) * l) := by
    intro p l hp hl
    have hl0 : l ≠ 0 := by omega
    have hp0 : p ≠ 0 := by omega
    have hdocs : pageDocs eng s p l status =
        ((eng.sort (s.bookings.filter (statusQuery status))).drop ((p - 1) * l)).take l := by
      simp [pageDocs, hl0]
    have hrefs : ∀ b ∈ pageDocs eng s p l status, ∃ sl ∈ s.slots, sl.id = b.slotId := by
      intro b hb
      rw [hdocs] at hb
      have h1 := List.mem_of_mem_drop (List.mem_of_mem_take hb)
      have h2 := (eng.perm _).subset h1
      exact hr b (List.mem_of_mem_filter h2)
    obtain ⟨views, hviews⟩ := formatBookings_of_refs hrefs
    have hf := formatBookings_eq_some hviews
    refine ⟨views, ?_, ?_, ?_⟩
    · simp [allBookings, hp0, hl0, hviews]
    · rw [← hdocs]; exact hf
    · rw [(map_id_of_forall₂_view hf).2, hdocs, List.length_take, List.length_drop,
        (eng.perm _).length_eq]
  refine ⟨key p l hp hl, fun n => pages_le_iff _ l n hl, ?_⟩
  intro hT
  obtain ⟨views, h1, _, h3⟩ := key 3 20 (by decide) (by decide)
  rw [hT] at h1 h3
  exact ⟨views, h1, by rw [h3]; rfl⟩

/-- Instance of C21: page 3 of 45 bookings with limit 20. -/
theorem allBookings_pagination_witness :
    (∀ b ∈ fortyFiveStore.bookings, ∃ sl ∈ fortyFiveStore.slots, sl.id = b.slotId) ∧
    (fortyFiveStore.bookings.filter (statusQuery none)).length = 45 ∧
    ∃ views, allBookings scanOrder fortyFiveStore (some 3) (some 20) none =
        .ok views ⟨3, 20, 45, some 3⟩ ∧
      views.length = 5 :=
  ⟨by decide, by decide,
    (allBookings_pagination scanOrder fortyFiveStore 3 20 none (by decide) (by decide)
      (by decide)).2.2 (by decide)⟩

/-- A permutation of two documents is one of the two orders. -/
theorem perm_pair {α : Type} {a b : α} {l : List α} (hab : a ≠ b) (h : l.Perm [a, b]) :
    l = [a, b] ∨ l = [b, a] := by
  have hlen := h.length_eq
  match l, hlen with
  | [x, y], _ =>
    have hx : x ∈ [a, b] := h.subset (by simp)
    have hy : y ∈ [a, b] := h.subset (by simp)
    have hnd : [x, y].Nodup := h.nodup_iff.mpr (by simp [hab])
    simp only [List.mem_cons, List.mem_singleton, List.not_mem_nil, or_false] at hx hy
    simp only [List.nodup_cons, List.mem_singleton, List.not_mem_nil, not_false_eq_true,
      List.nodup_nil, and_true] at hnd
    rcases hx with rfl | rfl <;> rcases hy with rfl | rfl
    · exact absurd rfl hnd
    · left; rfl
    · right; rfl
    · exact absurd rfl hnd

/-- The part of C22 that holds: an answer of my-bookings lists the bookings of the
caller, each once, and no other; `total` is their number. -/
theorem myBookings_members (eng : SortEngine) (s : Store) (userId : Nat)
    (views : List BookingView) (total : Nat)
    (h : myBookings eng s userId = .ok views total) :
    total = views.length ∧
    (views.map (fun v => (v.id, v.status))).Perm
      ((s.bookings.filter (fun b => b.userId == userId)).map (fun b => (b.id, b.status))) ∧
    views.length = (s.bookings.filter (fun b => b.userId == userId)).length := by
  unfold myBookings at h
  cases hf : formatBookings s.slots
      (eng.sort (s.bookings.filter (fun b => b.userId == userId))) with
  | none => rw [hf] at h; simp at h
  | some vs =>
    rw [hf] at h
    simp only [MyBookingsResponse.ok.injEq] at h
    obtain ⟨rfl, rfl⟩ := h
    have h2 := map_id_of_forall₂_view (formatBookings_eq_some hf)
    refine ⟨rfl, ?_, ?_⟩
    · rw [h2.1]
      exact (eng.perm _).map _
    · rw [h2.2]
      exact (eng.perm _).length_eq

/-- C22, failing input.  User 7 books 09:00-09:30 and 10:00-10:30, in one order or in
the other: both databases are reachable and hold the same Booking documents.  The sort
path `slotId.startAt` has no value in a stored Booking, so the engine lists these
documents in one and the same order in both databases, and in one of them the entry of
10:00 comes before the entry of 09:00.  With documents listed in storage order that
is the database where 10:00 was booked first. -/
theorem myBookings_not_sorted (eng : SortEngine) :
    Reachable utcServer nineThenTenStore ∧ Reachable utcServer tenThenNineStore ∧
    nineThenTenStore.bookings = tenThenNineStore.bookings ∧
    ((∃ views, myBookings eng nineThenTenStore 7 = .ok views 2 ∧ ¬ AscendingStarts views) ∨
      (∃ views, myBookings eng tenThenNineStore 7 = .ok views 2 ∧ ¬ AscendingStarts views)) ∧
    myBookings scanOrder tenThenNineStore 7 =
      .ok [⟨1, tenAm, tenThirty, .confirmed⟩, ⟨2, nineAm, nineThirty, .confirmed⟩] 2 := by
  refine ⟨⟨bookNineThenTen, by decide⟩, ⟨bookTenThenNine, by decide⟩, rfl, ?_, by decide⟩
  have hA : nineThenTenStore.bookings.filter (fun b => b.userId == 7) =
      [⟨1, 7, 1, .confirmed⟩, ⟨2, 7, 2, .confirmed⟩] := by decide
  have hB : tenThenNineStore.bookings.filter (fun b => b.userId == 7) =
      [⟨1, 7, 1, .confirmed⟩, ⟨2, 7, 2, .confirmed⟩] := by decide
  have hne : (⟨1, 7, 1, .confirmed⟩ : Booking) ≠ ⟨2, 7, 2, .confirmed⟩ := by decide
  rcases perm_pair hne (eng.perm [⟨1, 7, 1, .confirmed⟩, ⟨2, 7, 2, .confirmed⟩]) with h | h
  · right
    refine ⟨[⟨1, tenAm, tenThirty, .confirmed⟩, ⟨2, nineAm, nineThirty, .confirmed⟩], ?_,
      by decide⟩
    unfold myBookings
    rw [hB, h]
    decide
  · left
    refine ⟨[⟨2, tenAm, tenThirty, .confirmed⟩, ⟨1, nineAm, nineThirty, .confirmed⟩], ?_,
      by decide⟩
    unfold myBookings
    rw [hA, h]
    decide

/-! ## C23 : the role gate -/

/-- C23.  `requireRole(roles)` answers 401 without an authenticated user, 403 for a user
whose role is not in `roles`, and calls the next handler exactly when the role is in
`roles`; a caller with the role `patient` gets 403 from the all-bookings listing and
from the status update, whose handlers are not run. -/
theorem requireRole_gate (roles : List String) (user : Option User) (u : User) :
    requireRole roles none = .unauthenticated ∧
    (u.role ∉ roles → requireRole roles (some u) = .forbidden) ∧
    (u.role ∈ roles → requireRole roles (some u) = .next) ∧
    (requireRole roles user = .next ↔ ∃ v, user = some v ∧ v.role ∈ roles) ∧
    (∀ (α : Type) (handler : α),
      (gated roles user handler = .handled handler ↔ ∃ v, user = some v ∧ v.role ∈ roles) ∧
      (user = none → gated roles user handler = .denied 401) ∧
      (u.role ∉ roles → gated roles (some u) handler = .denied 403)) ∧
    (u.role = "patient" → ∀ eng s page limit status id,
      allBookingsRoute eng s (some u) page limit status = .denied 403 ∧
      patchStatusRoute s (some u) id status = .denied 403) := by
  have h2 : u.role ∉ roles → requireRole roles (some u) = .forbidden := by
    intro h
    simp [requireRole, h]
  have h3 : u.role ∈ roles → requireRole roles (some u) = .next := by
    intro h
    simp [requireRole, h]
  have h4 : requireRole roles user = .next ↔ ∃ v, user = some v ∧ v.role ∈ roles := by
    cases user with
    | none => simp [requireRole]
    | some v =>
      by_cases hv : v.role ∈ roles
      · simp [requireRole, hv]
      · simp [requireRole, hv]
  refine ⟨rfl, h2, h3, h4, ?_, ?_⟩
  · intro α handler
    refine ⟨?_, ?_, ?_⟩
    · rw [← h4]
      unfold gated
      cases requireRole roles user <;> simp
    · intro hu
      subst hu
      rfl
    · intro hu
      unfold gated
      rw [h2 hu]
  · intro hp eng s page limit status id
    have hr : requireRole ["admin"] (some u) = .forbidden := by
      simp [requireRole, hp]
    constructor
    · unfold allBookingsRoute gated
      rw [hr]
    · unfold patchStatusRoute gated
      rw [hr]

/-- Instance of C23: a patient asks to cancel booking 1; an admin is let through. -/
theorem requireRole_gate_witness :
    samplePatient.role = "patient" ∧
    patchStatusRoute bookedStore (some samplePatient) 1 (some "cancelled") = .denied 403 ∧
    allBookingsRoute scanOrder bookedStore (some samplePatient) none none none =
      .denied 403 ∧
    sampleAdmin.role ∈ ["admin"] ∧
    requireRole ["admin"] (some sampleAdmin) = .next :=
  ⟨rfl,
    ((requireRole_gate ["admin"] none samplePatient).2.2.2.2.2 rfl scanOrder bookedStore
      none none (some "cancelled") 1).2,
    ((requireRole_gate ["admin"] none samplePatient).2.2.2.2.2 rfl scanOrder bookedStore
      none none none 1).1,
    by decide,
    (requireRole_gate ["admin"] none sampleAdmin).2.2.1 (by decide)⟩

/-! ## C24, C25, C27 : invariants of request sequences -/

/-- C24.  In every database reachable from the empty one by `bookSlot` and `setStatus`
calls no two Booking records, whatever their status, have the same `slotId`; the
insertion of a Booking whose `slotId` is that of a stored Booking is refused. -/
theorem one_booking_per_slot (srv : Server) (s : Store) (h : Reachable srv s) :
    (s.bookings.map (·.slotId)).Nodup ∧
    (∀ b1 ∈ s.bookings, ∀ b2 ∈ s.bookings, b1.slotId = b2.slotId → b1 = b2) ∧
    (∀ userId slotId, (∃ b ∈ s.bookings, b.slotId = slotId) →
      Booking.create s.bookings userId slotId = none) := by
  have hn : (s.bookings.map (·.slotId)).Nodup :=
    Reachable.induct (P := fun s => (s.bookings.map (·.slotId)).Nodup) List.nodup_nil
      (fun s r hs => nodup_slotId_step srv s r hs) h
  refine ⟨hn, fun b1 h1 b2 h2 he => List.inj_on_of_nodup_map hn h1 h2 he, ?_⟩
  rintro userId slotId ⟨b, hb, rfl⟩
  unfold Booking.create
  have : (s.bookings.any fun x => x.slotId == b.slotId) = true := by
    rw [List.any_eq_true]
    exact ⟨b, hb, by simp⟩
  rw [if_pos this]

/-- Instance of C24: the database after one booking. -/
theorem one_booking_per_slot_witness :
    Reachable utcServer bookedStore ∧
    (bookedStore.bookings.map (·.slotId)).Nodup ∧
    Booking.create bookedStore.bookings 8 1 = none :=
  ⟨⟨[.book sampleNow 7 (.instant nineAm) (.instant nineThirty)], by decide⟩,
    (one_booking_per_slot utcServer bookedStore
      ⟨[.book sampleNow 7 (.instant nineAm) (.instant nineThirty)], by decide⟩).1,
    (one_booking_per_slot utcServer bookedStore
      ⟨[.book sampleNow 7 (.instant nineAm) (.instant nineThirty)], by decide⟩).2.2 8 1
      ⟨⟨1, 7, 1, .confirmed⟩, by decide, rfl⟩⟩

/-- C25, counterexample.  Saving a second Slot for 09:00-09:30 on a database that holds
one is not refused, and the two handlers of C2 leave a database with two Slot records
for the pair. -/
theorem duplicate_slot_saved :
    Slot.create bookedStore.slots nineAm nineThirty true =
      some ([⟨1, nineAm, nineThirty, true⟩, ⟨2, nineAm, nineThirty, true⟩],
        ⟨2, nineAm, nineThirty, true⟩) ∧
    (slotsAt (runSchedule utcServer Store.empty
        [Call.start 7 nineAm nineThirty, Call.start 8 nineAm nineThirty]
        [0, 0, 1, 1, 0, 1, 0, 1]).1 nineAm nineThirty).length = 2 := by
  decide

/-- C25, amended.  `bookSlot` saves a new Slot only after its lookup by
`(startAt, endAt)` found none: in every database reachable from the empty one by
`bookSlot` and `setStatus` calls handled one after the other, no two Slot records have
the same pair of instants. -/
theorem one_slot_per_pair (srv : Server) (s : Store) (h : Reachable srv s) :
    (s.slots.map Slot.pair).Nodup ∧
    (∀ sl1 ∈ s.slots, ∀ sl2 ∈ s.slots,
      sl1.startAt = sl2.startAt → sl1.endAt = sl2.endAt → sl1 = sl2) := by
  have hn : (s.slots.map Slot.pair).Nodup := reachable_nodup_pair h
  refine ⟨hn, ?_⟩
  intro sl1 h1 sl2 h2 hs he
  exact List.inj_on_of_nodup_map hn h1 h2 (by simp [Slot.pair, hs, he])

/-- Instance of C25 (amended): the database after a booking, a cancellation and a
failed second booking holds one Slot for the pair. -/
theorem one_slot_per_pair_witness :
    Reachable utcServer ⟨[⟨1, nineAm, nineThirty, true⟩], [⟨1, 7, 1, .cancelled⟩]⟩ ∧
    ((⟨[⟨1, nineAm, nineThirty, true⟩], [⟨1, 7, 1, .cancelled⟩]⟩ : Store).slots.map
      Slot.pair).Nodup :=
  ⟨⟨bookCancelBook, by decide⟩,
    (one_slot_per_pair utcServer ⟨[⟨1, nineAm, nineThirty, true⟩], [⟨1, 7, 1, .cancelled⟩]⟩
      ⟨bookCancelBook, by decide⟩).1⟩

/-- C27.  In every database reachable from the empty one by `bookSlot` and `setStatus`
calls every Slot record has `endAt > startAt` and lasts exactly 1 800 000 ms.  The bound
comes from the validation of `bookSlot`: the `pre("save")` hook of the model alone
accepts a Slot of one hour. -/
theorem slot_duration_invariant (srv : Server) (s : Store) (h : Reachable srv s) :
    (∀ sl ∈ s.slots, sl.startAt < sl.endAt ∧ sl.endAt - sl.startAt = 1800000) ∧
    (Slot.create [] nineAm (nineAm + 3600000) true).isSome = true := by
  refine ⟨?_, by decide⟩
  have hd : ∀ sl ∈ s.slots, sl.endAt - sl.startAt = 1800000 := reachable_slot_duration h
  intro sl hsl
  have := hd sl hsl
  exact ⟨by omega, this⟩

/-- Instance of C27: the Slot stored by one booking lasts 30 minutes. -/
theorem slot_duration_invariant_witness :
    Reachable utcServer bookedStore ∧
    ∀ sl ∈ bookedStore.slots, sl.startAt < sl.endAt ∧ sl.endAt - sl.startAt = 1800000 :=
  ⟨⟨[.book sampleNow 7 (.instant nineAm) (.instant nineThirty)], by decide⟩,
    (slot_duration_invariant utcServer bookedStore
      ⟨[.book sampleNow 7 (.instant nineAm) (.instant nineThirty)], by decide⟩).1⟩

/-! ## C26, C29 : accepted pairs, the grid, and the generator loop -/

/-- C26, counterexample.  A future 09:15-09:45 passes the validation of `bookSlot`
although the generator never emits it, and it is booked with 201 next to 09:00-09:30:
the two bookings overlap from 09:15 to 09:30. -/
theorem off_grid_pair_accepted :
    validateBooking 0 sampleNow (.instant (atLocal 0 sampleDay 9 15))
        (.instant (atLocal 0 sampleDay 9 45)) =
      .accepted (atLocal 0 sampleDay 9 15) (atLocal 0 sampleDay 9 45) ∧
    getMinutes 0 (atLocal 0 sampleDay 9 15) = 15 ∧
    (atLocal 0 sampleDay 9 15, atLocal 0 sampleDay 9 45) ∉
      generateSlots 0 (atLocal 0 sampleDay 9 0) (atLocal 0 sampleDay 17 0) ∧
    bookSlot utcServer sampleNow bookedStore 8 (.instant (atLocal 0 sampleDay 9 15))
        (.instant (atLocal 0 sampleDay 9 45)) =
      (.created ⟨2, 8, 2, .confirmed⟩,
        ⟨[⟨1, nineAm, nineThirty, true⟩,
            ⟨2, atLocal 0 sampleDay 9 15, atLocal 0 sampleDay 9 45, true⟩],
          [⟨1, 7, 1, .confirmed⟩, ⟨2, 8, 2, .confirmed⟩]⟩) ∧
    nineAm < atLocal 0 sampleDay 9 15 ∧ atLocal 0 sampleDay 9 15 < nineThirty := by
  decide

/-- C26, amended.  Every pair that `bookSlot` accepts starts after the request time at a
local hour of at least 9, ends at a local hour of at most 17 and lasts exactly 30
minutes; and every slot the generator emits is accepted when its start is after the
request time. -/
theorem accepted_pairs_and_grid (tz now : Int) (startAt endAt : DateInput)
    (st en a b fromDate toDate : Int) :
    (validateBooking tz now startAt endAt = .accepted st en →
      now < st ∧ 9 ≤ getHours tz st ∧ getHours tz en ≤ 17 ∧ en = st + halfHour) ∧
    ((a, b) ∈ generateSlots tz fromDate toDate → now < a →
      validateBooking tz now (.instant a) (.instant b) = .accepted a b) := by
  have hh : halfHour = 1800000 := by decide
  constructor
  · intro h
    obtain ⟨_, _, h1, h2, h3, h4⟩ := validateBooking_accepted h
    exact ⟨h1, h2, h3, by rw [hh]; omega⟩
  · intro hm hfut
    obtain ⟨k, _, _, h9, h17, hb⟩ := (mem_generateSlots tz fromDate toDate a b).mp hm
    subst hb
    exact validateBooking_pass hfut (by omega) (by rw [hh]; omega)

/-- Instance of C26 (amended): 09:00-09:30 of 2025-01-06 is generated and accepted. -/
theorem accepted_pairs_and_grid_witness :
    (nineAm, nineThirty) ∈
      generateSlots 0 (atLocal 0 sampleDay 9 0) (atLocal 0 sampleDay 17 0) ∧
    sampleNow < nineAm ∧
    validateBooking 0 sampleNow (.instant nineAm) (.instant nineThirty) =
      .accepted nineAm nineThirty :=
  ⟨by decide, by decide,
    (accepted_pairs_and_grid 0 sampleNow .missing .missing 0 0 nineAm nineThirty
      (atLocal 0 sampleDay 9 0) (atLocal 0 sampleDay 17 0)).2 (by decide) (by decide)⟩

/-- The loop emits at most one slot per iteration. -/
theorem length_slotLoop_le (tz toDate : Int) (n : Nat) (cur : Int) :
    (slotLoop tz toDate n cur).length ≤ n := by
  induction n generalizing cur with
  | zero => simp [slotLoop]
  | succ n ih =>
    unfold slotLoop
    split
    · have := ih (cur + halfHour)
      split <;> simp <;> omega
    · simp

/-- The loop emits its slots in strictly increasing order of `startAt`. -/
theorem pairwise_slotLoop (tz toDate : Int) (n : Nat) (cur : Int) :
    ((slotLoop tz toDate n cur).map (·.1)).Pairwise (· < ·) := by
  induction n generalizing cur with
  | zero => simp [slotLoop]
  | succ n ih =>
    unfold slotLoop
    split
    · split
      · simp only [List.singleton_append, List.map_cons, List.pairwise_cons]
        refine ⟨?_, ih (cur + halfHour)⟩
        intro x hx
        obtain ⟨p, hp, rfl⟩ := List.mem_map.mp hx
        obtain ⟨k, _, ha, _⟩ := (mem_slotLoop tz toDate n (cur + halfHour) p.1 p.2).mp hp
        have : (0 : Int) ≤ k := Int.ofNat_nonneg k
        rw [ha]
        unfold halfHour
        omega
      · simpa using ih (cur + halfHour)
    · simp

/-- The number of iterations within a bound: the bound, or the number after which the
loop test fails. -/
theorem loopCount_eq (toDate : Int) (n : Nat) (cur : Int) :
    loopCount toDate n cur = min n (iterations cur toDate) := by
  induction n generalizing cur with
  | zero => simp [loopCount]
  | succ n ih =>
    unfold loopCount
    split
    · rw [ih]
      unfold iterations halfHour
      omega
    · unfold iterations halfHour
      omega

/-- C29.  The generator loop ends for every pair of parsed dates.  Its test
`currentDate < toDate` holds for the cursor values `fromDate + k * 30 min` with
`k < iterations` and for no later one, where `iterations` is
`max 0 ⌈(toDate - fromDate) / 30 min⌉`: the loop runs that many iterations (any
larger bound on the iterations gives the same count and the same slots), none when the
day of `from` is later than the day of `to`; it emits at most one slot per iteration, in
strictly increasing `startAt` order. -/
theorem slot_loop_terminates (tz fromDate toDate f t : Int) (fuel : Nat) :
    (∀ k : Nat, fromDate + k * halfHour < toDate ↔ k < iterations fromDate toDate) ∧
    ((iterations fromDate toDate : Int) =
      max 0 ((toDate - fromDate + (halfHour - 1)) / halfHour)) ∧
    loopCount toDate fuel fromDate = min fuel (iterations fromDate toDate) ∧
    (iterations fromDate toDate ≤ fuel →
      loopCount toDate fuel fromDate = iterations fromDate toDate ∧
      slotLoop tz toDate fuel fromDate = generateSlots tz fromDate toDate) ∧
    (toDate ≤ fromDate →
      iterations fromDate toDate = 0 ∧ generateSlots tz fromDate toDate = []) ∧
    (localDay tz t < localDay tz f →
      iterations (setHours tz f 9) (setHours tz t 17) = 0) ∧
    (generateSlots tz fromDate toDate).length ≤ iterations fromDate toDate ∧
    ((generateSlots tz fromDate toDate).map (·.1)).Pairwise (· < ·) := by
  refine ⟨?_, ?_, loopCount_eq toDate fuel fromDate, ?_, ?_, ?_,
    length_slotLoop_le tz toDate _ fromDate, pairwise_slotLoop tz toDate _ fromDate⟩
  · intro k
    unfold iterations halfHour
    omega
  · unfold iterations halfHour
    omega
  · intro h
    refine ⟨?_, ?_⟩
    · rw [loopCount_eq]; omega
    · exact slotLoop_fuel tz toDate fuel _ fromDate h (le_refl _)
  · intro h
    exact ⟨by unfold iterations halfHour; omega, generateSlots_of_le h⟩
  · intro h
    unfold iterations halfHour setHours atLocal
    omega

/-- Instance of C29: one day takes 16 iterations, a reversed range none. -/
theorem slot_loop_terminates_witness :
    iterations (atLocal 0 sampleDay 9 0) (atLocal 0 sampleDay 17 0) = 16 ∧
    iterations (atLocal 0 sampleDay 9 0) (atLocal 0 sampleDay 17 0) ≤ 100 ∧
    loopCount (atLocal 0 sampleDay 17 0) 100 (atLocal 0 sampleDay 9 0) =
      iterations (atLocal 0 sampleDay 9 0) (atLocal 0 sampleDay 17 0) ∧
    slotLoop 0 (atLocal 0 sampleDay 17 0) 100 (atLocal 0 sampleDay 9 0) =
      generateSlots 0 (atLocal 0 sampleDay 9 0) (atLocal 0 sampleDay 17 0) ∧
    localDay 0 (atLocal 0 sampleDay 0 0) < localDay 0 (atLocal 0 (sampleDay + 1) 0 0) ∧
    iterations (setHours 0 (atLocal 0 (sampleDay + 1) 0 0) 9)
      (setHours 0 (atLocal 0 sampleDay 0 0) 17) = 0 :=
  ⟨by decide, by decide,
    ((slot_loop_terminates 0 (atLocal 0 sampleDay 9 0) (atLocal 0 sampleDay 17 0) 0 0
      100).2.2.2.1 (by decide)).1,
    ((slot_loop_terminates 0 (atLocal 0 sampleDay 9 0) (atLocal 0 sampleDay 17 0) 0 0
      100).2.2.2.1 (by decide)).2,
    by decide,
    (slot_loop_terminates 0 0 0 (atLocal 0 (sampleDay + 1) 0 0) (atLocal 0 sampleDay 0 0)
      0).2.2.2.2.2.1 (by decide)⟩

/-! ## C28 : bookings that are not cancelled and the flag of their slot -/

/-- C28, counterexample.  After booking 09:00-09:30, cancelling the booking and setting
it back to `confirmed`, the Booking is confirmed and its Slot has `isBooked = false`:
only the status `cancelled` touches the flag.  The listing shows the slot free. -/
theorem revived_booking_on_free_slot :
    Reachable utcServer revivedStore ∧
    (∀ f, runRequests ⟨0, f⟩ Store.empty bookCancelConfirm = revivedStore) ∧
    ¬ ActiveBookingsFlagged revivedStore ∧
    (∃ views, listSlots utcServer sampleNow revivedStore janSixth janSixth = .ok views ∧
      (⟨nineAm, nineThirty, false⟩ : SlotView) ∈ views) := by
  refine ⟨⟨bookCancelConfirm, by decide⟩, fun f => rfl, by decide, ⟨_, rfl, by decide⟩⟩

/-- C28, amended.  In every database reachable from the empty one by `bookSlot` and
`setStatus` calls none of which moves a cancelled booking back to `confirmed` or
`completed`, every Booking whose status is `confirmed` or `completed` references a Slot
with `isBooked = true`; so a slot listed as available is not held by such a booking. -/
theorem active_bookings_flagged (srv : Server) (s : Store)
    (h : ReachableWithoutRevival srv s) :
    (∀ b ∈ s.bookings, (b.status = .confirmed ∨ b.status = .completed) →
      ∃ sl ∈ s.slots, sl.id = b.slotId ∧ sl.isBooked = true) ∧
    Reachable srv s := by
  have key : (s.bookings.map (·.slotId)).Nodup ∧ ActiveBookingsFlagged s ∧ Reachable srv s := by
    induction h with
    | empty =>
      refine ⟨List.nodup_nil, ?_, ⟨[], rfl⟩⟩
      intro b hb
      simp [Store.empty] at hb
    | step r _ hr ih =>
      obtain ⟨hn, hk, rs, hrs⟩ := ih
      refine ⟨nodup_slotId_step srv _ r hn, activeBookingsFlagged_step srv _ r hn hk hr,
        rs ++ [r], ?_⟩
      simp [runRequests, List.foldl_append] at hrs ⊢
      rw [hrs]
  refine ⟨?_, key.2.2⟩
  intro b hb hst
  apply key.2.1 b hb
  rcases hst with h1 | h1 <;> rw [h1] <;> decide

/-- Instance of C28 (amended): the database after one booking. -/
theorem active_bookings_flagged_witness :
    ReachableWithoutRevival utcServer bookedStore ∧
    ∀ b ∈ bookedStore.bookings, (b.status = .confirmed ∨ b.status = .completed) →
      ∃ sl ∈ bookedStore.slots, sl.id = b.slotId ∧ sl.isBooked = true :=
  have hr : ReachableWithoutRevival utcServer bookedStore :=
    ReachableWithoutRevival.step
      (.book sampleNow 7 (.instant nineAm) (.instant nineThirty))
      ReachableWithoutRevival.empty rfl
  ⟨hr, (active_bookings_flagged utcServer bookedStore hr).1⟩

end AppointmentBooking
